import Mathlib

/-
  Verification development for the WebIDL → ambient-declaration translator.

  The definitions below are a shallow embedding of the repository's core:
  * src/tokenizer.ts   — lexical scanner (tokenize, KEYWORDS, TokenKind)
  * src/parser.ts      — parser-combinator engine
  * src/webidl.ts      — WebIDL grammar and source AST
  * src/typescript.ts  — Writer, Emitter, TypeMapping, Generator, target AST

  JS strings are modelled as `List Char`, JS numbers used as positions as
  `Int`, and `undefined`/`null` as `Option`.  The sticky regular expressions
  of the tokenizer are modelled as match-length functions: each one returns
  the length the corresponding anchored pattern matches at the head of the
  input, or `none` when the pattern does not match there.  Character classes
  are expressed through code points (`Char.toNat`), e.g. 48–57 for `[0-9]`.
-/

namespace webidl

/-- Token kinds, from `enum TokenKind` in src/tokenizer.ts. -/
inductive TokenKind where
  | integer
  | float
  | identifier
  | string
  | whitespace
  | comment
  | other
  | keyword
  | eof
  deriving DecidableEq, Repr

/-- A text span: token text plus source position.  `text` is an `Option`
because the `expected` token of a parser error may carry an undefined text
(`token(kind)` called without a text argument); spans of tokens produced by
the tokenizer always carry `some` text. -/
structure TextSpan where
  text : Option String
  position : Int
  deriving DecidableEq, Repr

/-- A classified lexical token (`interface Token` in src/tokenizer.ts). -/
structure Token where
  kind : TokenKind
  span : TextSpan
  deriving DecidableEq, Repr

/-- Read a span's text, defaulting to the empty string; used where the
source reads `.text` of a span that is always defined. -/
def TextSpan.textD (s : TextSpan) : String := s.text.getD ""

/-- The closed keyword list `KEYWORDS` of src/tokenizer.ts, in source order
(the order is significant: the keyword regex is an ordered alternation). -/
def KEYWORDS : List String :=
  ["-Infinity", "...", "ArrayBuffer", "ByteString", "DOMException", "DOMString", "DataView",
   "Error", "Float32Array", "Float64Array", "FrozenArray", "Infinity", "Int16Array",
   "Int32Array", "Int8Array", "NaN", "Promise", "RegExp", "USVString", "Uint16Array",
   "Uint32Array", "Uint8Array", "Uint8ClampedArray", "any", "attribute", "boolean", "byte",
   "callback", "const", "deleter", "dictionary", "double", "enum", "false", "float",
   "getter", "implements", "inherit", "interface", "iterable", "legacycaller", "long",
   "maplike", "null", "object", "octet", "optional", "or", "partial", "readonly",
   "required", "sequence", "serializer", "setlike", "setter", "short", "static",
   "stringifier", "true", "typedef", "unrestricted", "unsigned", "void"]

/-- Character class `[\t\n\r ]` (whitespace_pattern's class). -/
def isWsChar (c : Char) : Bool :=
  decide (c.toNat = 9 ∨ c.toNat = 10 ∨ c.toNat = 13 ∨ c.toNat = 32)

/-- Character class `[0-9]`. -/
def isDigitChar (c : Char) : Bool :=
  decide (48 ≤ c.toNat ∧ c.toNat ≤ 57)

/-- Character class `[A-Za-z]`. -/
def isAsciiLetter (c : Char) : Bool :=
  decide ((65 ≤ c.toNat ∧ c.toNat ≤ 90) ∨ (97 ≤ c.toNat ∧ c.toNat ≤ 122))

/-- Character class `[0-9A-Fa-f]`. -/
def isHexChar (c : Char) : Bool :=
  decide ((48 ≤ c.toNat ∧ c.toNat ≤ 57) ∨ (65 ≤ c.toNat ∧ c.toNat ≤ 70) ∨
          (97 ≤ c.toNat ∧ c.toNat ≤ 102))

/-- Character class `[0-7]`. -/
def isOctalChar (c : Char) : Bool :=
  decide (48 ≤ c.toNat ∧ c.toNat ≤ 55)

/-- Character class `[0-9A-Z_a-z-]` (identifier tail). -/
def isIdentTail (c : Char) : Bool :=
  decide ((48 ≤ c.toNat ∧ c.toNat ≤ 57) ∨ (65 ≤ c.toNat ∧ c.toNat ≤ 90) ∨ c.toNat = 95 ∨
          (97 ≤ c.toNat ∧ c.toNat ≤ 122) ∨ c.toNat = 45)

/-- The JS `.` metacharacter: any character except a line terminator. -/
def dotChar (c : Char) : Bool :=
  decide (¬(c.toNat = 10 ∨ c.toNat = 13 ∨ c.toNat = 8232 ∨ c.toNat = 8233))

/-- Length of the maximal run of decimal digits at the head of the input. -/
def digitsRun (l : List Char) : Nat := (l.takeWhile isDigitChar).length

/-- Length of the maximal run of hexadecimal digits at the head of the input. -/
def hexRun (l : List Char) : Nat := (l.takeWhile isHexChar).length

/-- Length of the maximal run of octal digits at the head of the input. -/
def octalRun (l : List Char) : Nat := (l.takeWhile isOctalChar).length

/-- Length of the maximal run of identifier-tail characters at the head. -/
def identRun (l : List Char) : Nat := (l.takeWhile isIdentTail).length

/-- Whether the input starts with a hexadecimal digit (`[0-9A-Fa-f]+` needs at
least one). -/
def headIsHex (l : List Char) : Bool :=
  match l with
  | h :: _ => isHexChar h
  | [] => false

/-- Match length of the body `([1-9][0-9]*|0[Xx][0-9A-Fa-f]+|0[0-7]*)` of
integer_pattern; the alternatives are tried in source order. -/
def integerBody (l : List Char) : Option Nat :=
  match l with
  | [] => none
  | c :: rest =>
    if 49 ≤ c.toNat ∧ c.toNat ≤ 57 then some (1 + digitsRun rest)
    else if c.toNat = 48 then
      match rest with
      | x :: rest2 =>
        if (x.toNat = 120 ∨ x.toNat = 88) ∧ headIsHex rest2 = true then
          some (2 + hexRun rest2)
        else some (1 + octalRun rest)
      | [] => some 1
    else none

/-- Match length of integer_pattern `-?([1-9][0-9]*|0[Xx][0-9A-Fa-f]+|0[0-7]*)`.
The optional leading minus backtracks to the empty alternative exactly when
the body fails right after it; the body can never start with `-`, so the
backtracked attempt fails as well. -/
def integerMatch (l : List Char) : Option Nat :=
  match l with
  | c :: rest => if c.toNat = 45 then (integerBody rest).map (· + 1) else integerBody l
  | [] => none

/-- Match length of the optional exponent `([Ee][+-]?[0-9]+)?`: the length the
greedy attempt matches, or 0 when the exponent group fails and `?` matches the
empty string instead. -/
def expPart (l : List Char) : Nat :=
  match l with
  | e :: rest =>
    if e.toNat = 101 ∨ e.toNat = 69 then
      match rest with
      | s :: rest2 =>
        if s.toNat = 43 ∨ s.toNat = 45 then
          if 0 < digitsRun rest2 then 2 + digitsRun rest2 else 0
        else if 0 < digitsRun rest then 1 + digitsRun rest else 0
      | [] => 0
    else 0
  | [] => 0

/-- Match length of the body of float_pattern,
`(([0-9]+\.[0-9]*|[0-9]*\.[0-9]+)([Ee][+-]?[0-9]+)?|[0-9]+[Ee][+-]?[0-9]+)`:
the dotted alternative (with optional exponent) is tried first, in its two
sub-alternative orders, then the exponent-only alternative. -/
def floatBody (l : List Char) : Option Nat :=
  match l.drop (digitsRun l) with
  | c :: rest2 =>
    if c.toNat = 46 then
      if 0 < digitsRun l then
        some (digitsRun l + 1 + digitsRun rest2 + expPart (rest2.drop (digitsRun rest2)))
      else if 0 < digitsRun rest2 then
        some (1 + digitsRun rest2 + expPart (rest2.drop (digitsRun rest2)))
      else none
    else if 0 < digitsRun l then
      if 0 < expPart (c :: rest2) then some (digitsRun l + expPart (c :: rest2)) else none
    else none
  | [] => none

/-- Match length of float_pattern (leading `-?` handled as in `integerMatch`). -/
def floatMatch (l : List Char) : Option Nat :=
  match l with
  | c :: rest => if c.toNat = 45 then (floatBody rest).map (· + 1) else floatBody l
  | [] => none

/-- Match length of identifier_pattern `_?[A-Za-z][0-9A-Z_a-z-]*`. -/
def identifierMatch (l : List Char) : Option Nat :=
  match l with
  | [] => none
  | c :: rest =>
    if c.toNat = 95 then
      match rest with
      | c2 :: rest2 => if isAsciiLetter c2 then some (2 + identRun rest2) else none
      | [] => none
    else if isAsciiLetter c then some (1 + identRun rest) else none

/-- Match length of string_pattern `"[^"]*"`. -/
def stringMatch (l : List Char) : Option Nat :=
  match l with
  | [] => none
  | c :: rest =>
    if c.toNat = 34 then
      let n := (rest.takeWhile (fun c2 => decide (c2.toNat ≠ 34))).length
      if n < rest.length then some (n + 2) else none
    else none

/-- Match length of whitespace_pattern `[\t\n\r ]+`. -/
def whitespaceMatch (l : List Char) : Option Nat :=
  let n := (l.takeWhile isWsChar).length
  if 0 < n then some n else none

/-- Lazy scan of the block-comment body `(.|\n)*?\*\/`: the body length up to
the first `*/`, or `none` when no closing `*/` is reachable through characters
the body can match. -/
def blockEnd (l : List Char) : Option Nat :=
  match l with
  | a :: b :: rest =>
    if a.toNat = 42 ∧ b.toNat = 47 then some 0
    else if dotChar a || a.toNat = 10 then (blockEnd (b :: rest)).map (· + 1)
    else none
  | [_] => none
  | [] => none

/-- Match length of comment_pattern `\/\/.*|\/\*(.|\n)*?\*\/` (line comment
alternative first). -/
def commentMatch (l : List Char) : Option Nat :=
  match l with
  | a :: b :: rest =>
    if a.toNat = 47 ∧ b.toNat = 47 then some (2 + (rest.takeWhile dotChar).length)
    else if a.toNat = 47 ∧ b.toNat = 42 then (blockEnd rest).map (· + 4)
    else none
  | _ => none

/-- Match length of other_pattern `[^\t\n\r 0-9A-Za-z]`. -/
def otherMatch (l : List Char) : Option Nat :=
  match l with
  | c :: _ => if isWsChar c || isDigitChar c || isAsciiLetter c then none else some 1
  | [] => none

/-- First keyword of the list that literally prefixes the input, with its
length: the keyword regex is an ordered alternation of escaped literals, so
the first alternative matching at the position wins. -/
def firstPrefix (ks : List String) (l : List Char) : Option Nat :=
  match ks with
  | [] => none
  | k :: ks2 => if k.data.isPrefixOf l then some k.data.length else firstPrefix ks2 l

/-- Match length of keyword_pattern at the head of the input. -/
def keywordMatch (l : List Char) : Option Nat := firstPrefix KEYWORDS l

/-- The candidate `(kind, match)` list evaluated at a position, in the order
of the `matches` array of `tokenize` ("Order is relevant"): keyword, integer,
float, identifier, string, whitespace, comment, other. -/
def matchCandidates (l : List Char) : List (TokenKind × Option Nat) :=
  [(.keyword, keywordMatch l), (.integer, integerMatch l), (.float, floatMatch l),
   (.identifier, identifierMatch l), (.string, stringMatch l),
   (.whitespace, whitespaceMatch l), (.comment, commentMatch l), (.other, otherMatch l)]

/-- The candidates whose pattern matched (`filter(p => p[1] != null)`). -/
def matchSome (l : List Char) : List (TokenKind × Nat) :=
  (matchCandidates l).filterMap (fun p => p.2.map (fun n => (p.1, n)))

/-- One step of the `reduce` that selects the longest match: a later candidate
replaces the current best only when strictly longer. -/
def pickStep (p c : TokenKind × Nat) : TokenKind × Nat := if p.2 < c.2 then c else p

/-- The `reduce((p, c) => ..., null)` of `tokenize`: the first candidate seeds
the accumulator, later candidates win only by being strictly longer. -/
def pickBest (xs : List (TokenKind × Nat)) : Option (TokenKind × Nat) :=
  match xs with
  | [] => none
  | x :: rest => some (rest.foldl pickStep x)

/-- The scan loop of `tokenize`, with explicit fuel standing for the number of
remaining loop iterations (the loop advances by at least one character per
iteration, so `length + 1` fuel always suffices; running out of fuel is
unreachable and modelled by an error).  `Invalid input` models the `throw` of
the source when no pattern matches. -/
def tokenizeGo (fuel : Nat) (l : List Char) (pos : Int) : Except String (List Token) :=
  match fuel, l with
  | 0, _ => .error "fuel"
  | _ + 1, [] => .ok [{ kind := .eof, span := { text := some "<eof>", position := pos } }]
  | fuel + 1, c :: rest =>
    match pickBest (matchSome (c :: rest)) with
    | none => .error "Invalid input"
    | some (k, n) =>
      match tokenizeGo fuel ((c :: rest).drop n) (pos + (n : Int)) with
      | .ok ts =>
        .ok ({ kind := k,
               span := { text := some (String.mk ((c :: rest).take n)), position := pos } } :: ts)
      | .error e => .error e

/-- `tokenize` of src/tokenizer.ts: the whole lazy sequence materialized.  The
source yields tokens one at a time; the aggregate list is what every consumer
in the repository builds from it (`Array.from`). -/
def tokenize (l : List Char) : Except String (List Token) :=
  tokenizeGo (l.length + 1) l 0

/-- Concatenation of the texts of all tokens but the last (the trailing
synthetic end-of-file token). -/
def spanConcat (ts : List Token) : List Char :=
  (ts.dropLast.map (fun t => t.span.textD.data)).flatten

/-
  Combinator engine, from src/parser.ts.  A parser is a pure function from a
  token list to a parse result; `undefined`/`null` fields (the `expected` and
  `got` of `fail()`'s error, the missing `got` on an empty token list) are
  `Option`s, and the success/failure distinction of the result record is an
  inductive, with `value` present exactly on success and `rest` reset to the
  tokens passed in on every failure, as in the source.
-/

/-- A parser diagnostic (`interface ParserError`): the expected token and the
offending token. -/
structure ParserError where
  expected : Option Token
  got : Option Token
  deriving DecidableEq, Repr

/-- A parse result (`interface IParserResult<T>`); `done` carries the fields
of a success, `failed` those of a failure (whose `value` is undefined). -/
inductive ParseResult (T : Type) where
  | done (consumed : Bool) (value : T) (rest : List Token) (errors : List ParserError)
  | failed (consumed : Bool) (rest : List Token) (errors : List ParserError)
  deriving DecidableEq, Repr

/-- A parser (`interface IParser<T>`). -/
def Parser (T : Type) : Type := List Token → ParseResult T

/-- The `success` field of a result. -/
def ParseResult.success {T : Type} : ParseResult T → Bool
  | .done .. => true
  | .failed .. => false

/-- The `consumed` field of a result. -/
def ParseResult.consumed {T : Type} : ParseResult T → Bool
  | .done c .. => c
  | .failed c .. => c

/-- The `rest` field of a result. -/
def ParseResult.rest {T : Type} : ParseResult T → List Token
  | .done _ _ r _ => r
  | .failed _ r _ => r

/-- The `errors` field of a result. -/
def ParseResult.errors {T : Type} : ParseResult T → List ParserError
  | .done _ _ _ e => e
  | .failed _ _ e => e

/-- The `value` field of a result (undefined on failure). -/
def ParseResult.value {T : Type} : ParseResult T → Option T
  | .done _ v _ _ => some v
  | .failed .. => none

/-- The loop of `many`, with fuel bounding the number of iterations.  The
source loop runs until the parser fails; an iteration that succeeds without
consuming repeats forever there, which the fuel models by giving up (that
cannot happen for the grammar's parsers, and `tokens.length + 1` fuel is
enough whenever every success consumes). -/
def manyGo {T : Type} (parser : Parser T) (tokens : List Token) (fuel : Nat)
    (rest : List Token) (values : List T) (consumed : Bool) : ParseResult (List T) :=
  match fuel with
  | 0 => .failed consumed tokens []
  | fuel + 1 =>
    match parser rest with
    | .done c v rest2 _ => manyGo parser tokens fuel rest2 (values ++ [v]) (consumed || c)
    | .failed c _ errs =>
      if c then .failed (consumed || c) tokens errs
      else .done (consumed || c) values rest []

/-- `many` of src/parser.ts: repeat a parser until it fails; a non-consuming
failure ends the repetition successfully with the values gathered so far, a
consuming failure fails the whole repetition. -/
def many {T : Type} (parser : Parser T) : Parser (List T) :=
  fun tokens => manyGo parser tokens (tokens.length + 1) tokens [] false

/-- `optional` of src/parser.ts: a success or a consuming failure passes
through; a non-consuming failure becomes a non-consuming success carrying the
fallback. -/
def optional {T : Type} (parser : Parser T) (fallback : T) : Parser T :=
  fun tokens =>
    match parser tokens with
    | .done c v r e => .done c v r e
    | .failed c r e => if c then .failed c r e else .done false fallback tokens []

/-- `constant` of src/parser.ts. -/
def constant {T : Type} (value : T) : Parser T :=
  fun tokens => .done false value tokens []

/-- Intermediate state of one `create` run: either the generator is still
alive (value, remaining tokens, error set of the last sub-result, consumption
flag) or a sub-parser failed (accumulated consumption and errors). -/
inductive CRes (T : Type) where
  | ok (value : T) (rest : List Token) (errors : List ParserError) (consumed : Bool)
  | err (consumed : Bool) (errors : List ParserError)

/-- The generator protocol of `create`, as a state-threading monad: state is
the remaining tokens, the error set of the latest sub-result, and the
accumulated consumption flag. -/
def CreateM (T : Type) : Type := List Token → List ParserError → Bool → CRes T

/-- Finishing a generator returns its value with the current state. -/
def CreateM.pureC {T : Type} (v : T) : CreateM T :=
  fun rest errs c => .ok v rest errs c

/-- Sequencing of generator steps: a failure aborts the rest of the body. -/
def CreateM.bindC {α β : Type} (m : CreateM α) (f : α → CreateM β) : CreateM β :=
  fun rest errs c =>
    match m rest errs c with
    | .ok v rest2 errs2 c2 => f v rest2 errs2 c2
    | .err c2 errs2 => .err c2 errs2

instance : Monad CreateM where
  pure := CreateM.pureC
  bind := CreateM.bindC

/-- One `yield parser` of the `create` protocol: run the parser on the
remaining tokens, or-accumulate `consumed`; on success replace the error set
with the sub-result's and continue, on failure abort with the accumulated
errors concatenated with the sub-result's. -/
def step {T : Type} (parser : Parser T) : CreateM T :=
  fun rest errs consumed =>
    match parser rest with
    | .done c v rest2 errs2 => .ok v rest2 errs2 (consumed || c)
    | .failed c _ errs2 => .err (consumed || c) (errs ++ errs2)

/-- `create` of src/parser.ts: run a generator body; on failure `rest` resets
to the tokens the sequence started from. -/
def create {T : Type} (m : CreateM T) : Parser T :=
  fun tokens =>
    match m tokens [] false with
    | .ok v rest errs consumed => .done consumed v rest errs
    | .err consumed errs => .failed consumed tokens errs

/-- `combine` of src/parser.ts: run two parsers in sequence, pairing their
values; fails when either fails, concatenating error sets. -/
def combine {T1 T2 : Type} (p1 : Parser T1) (p2 : Parser T2) : Parser (T1 × T2) :=
  fun tokens =>
    match p1 tokens with
    | .done c1 v1 r1 e1 =>
      match p2 r1 with
      | .done c2 v2 r2 e2 => .done (c1 || c2) (v1, v2) r2 (e1 ++ e2)
      | .failed c2 _ e2 => .failed (c1 || c2) tokens (e1 ++ e2)
    | .failed c1 _ e1 => .failed c1 tokens e1

/-- The loop of `choose`: try each alternative in order; a success or a
consuming failure is returned as is, a non-consuming failure contributes its
errors and the next alternative is tried. -/
def chooseGo {T : Type} (tokens : List Token) (errs : List ParserError)
    (parsers : List (Parser T)) : ParseResult T :=
  match parsers with
  | [] => .failed false tokens errs
  | p :: ps =>
    match p tokens with
    | .done c v r e => .done c v r e
    | .failed c r e => if c then .failed c r e else chooseGo tokens (errs ++ e) ps

/-- `choose` of src/parser.ts (variadic in the source; the alternatives are
passed as a list): ordered alternation with commit-on-consumption. -/
def choose {T : Type} (parsers : List (Parser T)) : Parser T :=
  fun tokens => chooseGo tokens [] parsers

/-- The loop of `choose_backtracking`: only a success stops the scan; every
failure, consuming or not, contributes its errors and the next alternative is
tried on the original tokens. -/
def chooseBackGo {T : Type} (tokens : List Token) (errs : List ParserError)
    (parsers : List (Parser T)) : ParseResult T :=
  match parsers with
  | [] => .failed false tokens errs
  | p :: ps =>
    match p tokens with
    | .done c v r e => .done c v r e
    | .failed _ _ e => chooseBackGo tokens (errs ++ e) ps

/-- `choose_backtracking` of src/parser.ts: like `choose` but commits only on
success. -/
def choose_backtracking {T : Type} (parsers : List (Parser T)) : Parser T :=
  fun tokens => chooseBackGo tokens [] parsers

/-- `map` of src/parser.ts: transform the success value, pass a failure
through (resetting `rest` to the input tokens). -/
def map {T R : Type} (parser : Parser T) (f : T → R) : Parser R :=
  fun tokens =>
    match parser tokens with
    | .done c v r e => .done c (f v) r e
    | .failed c _ e => .failed c tokens e

/-- `exists` of src/parser.ts (renamed: `exists` is reserved in Lean): always
succeeds, with value whether the parser matched, keeping its rest, errors and
consumption. -/
def existsP {T : Type} (parser : Parser T) : Parser Bool :=
  fun tokens =>
    match parser tokens with
    | .done c _ r e => .done c true r e
    | .failed c r e => .done c false r e

/-- `name` of src/parser.ts: when the sub-result carries errors, collapse them
into a single synthetic "expected label" error (the label is stored in the
span of an eof-kinded expected token at position -1). -/
def name {T : Type} (parser : Parser T) (label : String) : Parser T :=
  fun tokens =>
    match parser tokens with
    | .done c v r errs =>
      match errs with
      | e :: _ => .done c v r [{ expected := some ⟨.eof, ⟨some label, -1⟩⟩, got := e.got }]
      | [] => .done c v r []
    | .failed c r errs =>
      match errs with
      | e :: _ => .failed c r [{ expected := some ⟨.eof, ⟨some label, -1⟩⟩, got := e.got }]
      | [] => .failed c r []

/-- `token` of src/parser.ts: consume exactly one token iff its kind (and,
when given, its exact text) matches; otherwise a non-consuming failure with an
expected-vs-actual error (`got` is undefined on an empty token list). -/
def token (kind : TokenKind) (text : Option String) : Parser TextSpan :=
  fun tokens =>
    match tokens with
    | t :: rest =>
      if t.kind = kind ∧ (text = none ∨ t.span.text = text) then
        .done true t.span rest []
      else
        .failed false tokens [{ expected := some ⟨kind, ⟨text, -1⟩⟩, got := some t }]
    | [] => .failed false [] [{ expected := some ⟨kind, ⟨text, -1⟩⟩, got := none }]

/-- `fail` of src/parser.ts (renamed: `fail` collides with library names):
always fails without consuming, with a single error whose expected and got
tokens are null (the source additionally tags the error with the calling
rule's name for diagnostics). -/
def failP {T : Type} : Parser T :=
  fun tokens => .failed false tokens [{ expected := none, got := none }]

/-
  Source AST, from the `model` namespace of src/webidl.ts.  Class hierarchies
  become inductives; the `attributes` list every Definition/member carries is
  a constructor field, initially `[]`, overwritten by the enclosing grammar
  rule through the `withAttributes` helpers (the sanctioned post-construction
  mutation of the source).  Other post-construction assignments of the grammar
  (`rest.readonly = ...` etc.) become the `set...` helpers below; they update
  the constructors that declare the field and leave the others unchanged (the
  grammar only ever applies them to members that have the field).
-/

/-- `SimpleValue` (the only concrete `Value`). -/
structure SValue where
  span : TextSpan
  deriving DecidableEq, Repr

/-- The `Type` variants of the source AST. -/
inductive SType where
  | Simple (span : TextSpan)
  | Nullable (type : SType)
  | Sequence (type : SType)
  | FrozenArrayT (type : SType)
  | PromiseT (type : SType)
  | Union (types : List SType)
  | FloatT (unrestricted : Bool) (nameSpan : TextSpan)
  | IntegerT (unsigned : Bool) (nameSpan : TextSpan) (long : Bool)

mutual

/-- The `ExtendedAttribute` class hierarchy.  `ArgListSpan` models the source
bug in the `ExtendedAttributeIdent` grammar rule, which constructs an
`ExtendedAttributeArgList` whose `args` field receives the right-hand
identifier span instead of an argument list; such a node satisfies the
`instanceof ExtendedAttributeArgList` check but crashes any consumer that
maps over its `args`. -/
inductive SExtAttr where
  | NoArgs (identifier : TextSpan)
  | ArgList (identifier : TextSpan) (args : List SArgument)
  | ArgListSpan (identifier : TextSpan) (ident : TextSpan)
  | IdentList (identifier : TextSpan) (idents : List TextSpan)
  | NamedArgList (identifier : TextSpan) (ident : TextSpan) (args : List SArgument)

/-- `Argument` of the source AST. -/
inductive SArgument where
  | mk (attributes : List SExtAttr) (optional : Bool) (type : SType) (variadic : Bool)
       (identifier : TextSpan) (defv : Option SValue)

end

/-- The `attributes` field of an argument. -/
def SArgument.attributes : SArgument → List SExtAttr
  | .mk a _ _ _ _ _ => a

/-- The `optional` field of an argument. -/
def SArgument.optional : SArgument → Bool
  | .mk _ o _ _ _ _ => o

/-- The `type` field of an argument. -/
def SArgument.type : SArgument → SType
  | .mk _ _ t _ _ _ => t

/-- The `variadic` field of an argument. -/
def SArgument.variadic : SArgument → Bool
  | .mk _ _ _ v _ _ => v

/-- The `identifier` field of an argument. -/
def SArgument.identifier : SArgument → TextSpan
  | .mk _ _ _ _ i _ => i

/-- The `def` field of an argument (`def` is reserved in Lean). -/
def SArgument.defv : SArgument → Option SValue
  | .mk _ _ _ _ _ d => d

/-- The grammar's `arg.attributes = attributes` assignment. -/
def SArgument.withAttributes (a : SArgument) (attrs : List SExtAttr) : SArgument :=
  match a with
  | .mk _ o t v i d => .mk attrs o t v i d

/-- The `identifier` field of an extended attribute. -/
def SExtAttr.identifier : SExtAttr → TextSpan
  | .NoArgs i => i
  | .ArgList i _ => i
  | .ArgListSpan i _ => i
  | .IdentList i _ => i
  | .NamedArgList i _ _ => i

/-- The `InterfaceMember` class hierarchy of the source AST.  `Static` wraps a
member; `Iterable`, `Maplike` and `Setlike` members carry a null identifier in
the source (`super(null)`). -/
inductive SInterfaceMember where
  | Const (attributes : List SExtAttr) (identifier : TextSpan) (type : SType) (value : SValue)
  | Attribute (attributes : List SExtAttr) (identifier : TextSpan) (inherit : Bool)
      (readonly : Bool) (type : SType)
  | Operation (attributes : List SExtAttr) (identifier : Option TextSpan)
      (specials : List TextSpan) (rtype : Option SType) (args : List SArgument)
  | Static (attributes : List SExtAttr) (member : SInterfaceMember)
  | IterableM (attributes : List SExtAttr) (key : Option SType) (value : SType)
  | MaplikeM (attributes : List SExtAttr) (readonly : Bool) (key : SType) (value : SType)
  | SetlikeM (attributes : List SExtAttr) (readonly : Bool) (value : SType)

/-- The grammar's `member.attributes = attributes` assignment. -/
def SInterfaceMember.withAttributes (m : SInterfaceMember) (attrs : List SExtAttr) :
    SInterfaceMember :=
  match m with
  | .Const _ i t v => .Const attrs i t v
  | .Attribute _ i h r t => .Attribute attrs i h r t
  | .Operation _ i s r a => .Operation attrs i s r a
  | .Static _ m2 => .Static attrs m2
  | .IterableM _ k v => .IterableM attrs k v
  | .MaplikeM _ r k v => .MaplikeM attrs r k v
  | .SetlikeM _ r v => .SetlikeM attrs r v

/-- The grammar's `rest.readonly = ...` assignment (applied by the grammar
only to attribute, maplike and setlike members, the classes declaring the
field). -/
def SInterfaceMember.setReadonly (m : SInterfaceMember) (b : Bool) : SInterfaceMember :=
  match m with
  | .Attribute a i h _ t => .Attribute a i h b t
  | .MaplikeM a _ k v => .MaplikeM a b k v
  | .SetlikeM a _ v => .SetlikeM a b v
  | m2 => m2

/-- The grammar's `rest.inherit = true` assignment (applied only to attribute
members). -/
def SInterfaceMember.setInherit (m : SInterfaceMember) (b : Bool) : SInterfaceMember :=
  match m with
  | .Attribute a i _ r t => .Attribute a i b r t
  | m2 => m2

/-- The grammar's `rest.rtype = rtype` assignment (applied only to operation
members). -/
def SInterfaceMember.setRtype (m : SInterfaceMember) (t : Option SType) : SInterfaceMember :=
  match m with
  | .Operation a i s _ ar => .Operation a i s t ar
  | m2 => m2

/-- The grammar's `rest.specials = ...` assignment (applied only to operation
members). -/
def SInterfaceMember.setSpecials (m : SInterfaceMember) (s : List TextSpan) :
    SInterfaceMember :=
  match m with
  | .Operation a i _ r ar => .Operation a i s r ar
  | m2 => m2

/-- The `identifier` of a member (a `StaticMember` passes its wrapped member's
identifier to `super`; iterable/maplike/setlike members carry null). -/
def SInterfaceMember.identifier : SInterfaceMember → Option TextSpan
  | .Const _ i _ _ => some i
  | .Attribute _ i _ _ _ => some i
  | .Operation _ i _ _ _ => i
  | .Static _ m => m.identifier
  | .IterableM .. => none
  | .MaplikeM .. => none
  | .SetlikeM .. => none

/-- `DictionaryMember` of the source AST. -/
structure SDictionaryMember where
  attributes : List SExtAttr
  required : Bool
  type : SType
  identifier : TextSpan
  defv : Option SValue

/-- The grammar's `member.attributes = attributes` assignment. -/
def SDictionaryMember.withAttributes (m : SDictionaryMember) (attrs : List SExtAttr) :
    SDictionaryMember :=
  { m with attributes := attrs }

/-- The `Definition` class hierarchy of the source AST. -/
inductive SDefinition where
  | CallbackD (attributes : List SExtAttr) (identifier : TextSpan)
  | InterfaceD (attributes : List SExtAttr) (identifier : TextSpan)
      (inheritance : Option TextSpan) (members : List SInterfaceMember)
  | DictionaryD (attributes : List SExtAttr) (identifier : TextSpan)
      (inheritance : Option TextSpan) (members : List SDictionaryMember)
  | EnumD (attributes : List SExtAttr) (identifier : TextSpan) (values : List TextSpan)
  | TypedefD (attributes : List SExtAttr) (identifier : TextSpan) (type : SType)
  | ImplementsD (attributes : List SExtAttr) (identifier : TextSpan) (nameSpan : TextSpan)

/-- The grammar's `definition.attributes = attributes` assignment. -/
def SDefinition.withAttributes (d : SDefinition) (attrs : List SExtAttr) : SDefinition :=
  match d with
  | .CallbackD _ i => .CallbackD attrs i
  | .InterfaceD _ i h m => .InterfaceD attrs i h m
  | .DictionaryD _ i h m => .DictionaryD attrs i h m
  | .EnumD _ i v => .EnumD attrs i v
  | .TypedefD _ i t => .TypedefD attrs i t
  | .ImplementsD _ i n => .ImplementsD attrs i n

/-- The grammar's `type.unsigned = true` assignment (`UnsignedIntegerType`;
applied only to integer types). -/
def SType.setUnsigned (t : SType) : SType :=
  match t with
  | .IntegerT _ n l => .IntegerT true n l
  | t2 => t2

/-- The grammar's `type.unrestricted = true` assignment
(`UnrestrictedFloatType`; applied only to float types). -/
def SType.setUnrestricted (t : SType) : SType :=
  match t with
  | .FloatT _ n => .FloatT true n
  | t2 => t2

/-
  The recursive-descent grammar, from the `grammar` namespace of
  src/webidl.ts.  The zero-argument rule factories of the source defer
  construction of mutually recursive rules; here the recursion is broken with
  an explicit fuel parameter instead, decremented on entry into each rule of a
  recursive cluster: with enough fuel (each rule invocation along one parse
  path burns at most one unit, so a fuel beyond the rule-nesting depth of the
  input changes nothing), the fuel-0 branch — an always-failing parser — is
  unreachable.  Rule names follow the source, except `Type` and `Null`
  (reserved / ambiguous in Lean), which become `TypeR` and `NullR`.
-/

namespace grammar

/-- `other(value)` helper: a one-token parser for punctuation. -/
def other (value : String) : Parser TextSpan := token .other (some value)

/-- `keyword(value)` helper. -/
def keyword (value : String) : Parser TextSpan := token .keyword (some value)

/-- `identifier()` helper. -/
def identifier : Parser TextSpan := token .identifier none

/-- The `id` helper of the source grammar (identity). -/
def idG {T : Type} (v : T) : T := v

/-- The `apply` helper of the source grammar: parse a value and a function,
apply the function. -/
def applyP {T1 T2 : Type} (p1 : Parser T1) (p2 : Parser (T1 → T2)) : Parser T2 :=
  map (combine p1 p2) (fun args => args.2 args.1)

/-- The `instance` helper of the source grammar (renamed: `instance` is
reserved in Lean): wrap the parsed span in a constructor. -/
def instanceOf {T : Type} (parser : Parser TextSpan) (ctor : TextSpan → T) : Parser T :=
  map parser ctor

/-- `BooleanLiteral`. -/
def BooleanLiteral : Parser SValue :=
  instanceOf (choose [keyword "true", keyword "false"]) SValue.mk

/-- `FloatLiteral`. -/
def FloatLiteral : Parser SValue :=
  instanceOf (choose [token .float none, keyword "-Infinity", keyword "Infinity",
                      keyword "NaN"]) SValue.mk

/-- `ConstValue`. -/
def ConstValue : Parser SValue :=
  choose [BooleanLiteral, FloatLiteral, instanceOf (token .integer none) SValue.mk,
          instanceOf (keyword "null") SValue.mk]

/-- `DefaultValue`. -/
def DefaultValue : Parser SValue :=
  choose [ConstValue, instanceOf (token .string none) SValue.mk,
          create (do
            let b ← step (other "[")
            let _ ← step (other "]")
            pure (SValue.mk ⟨some "[]", b.position⟩))]

/-- `Default` (null fallback becomes `none`). -/
def Default : Parser (Option SValue) :=
  optional (create (do
    let _ ← step (other "=")
    let v ← step DefaultValue
    pure (some v))) none

/-- `Null`: an optional `?` produces the nullable wrapper, else the identity. -/
def NullR : Parser (SType → SType) :=
  optional (map (other "?") (fun _ => SType.Nullable)) idG

/-- `OptionalLong`. -/
def OptionalLong : Parser Bool := existsP (keyword "long")

/-- `FloatType`. -/
def FloatType : Parser SType :=
  create (do
    let nm ← step (choose [keyword "float", keyword "double"])
    pure (SType.FloatT false nm))

/-- `UnrestrictedFloatType`. -/
def UnrestrictedFloatType : Parser SType :=
  choose [create (do
    let _ ← step (keyword "unrestricted")
    let t ← step FloatType
    pure t.setUnrestricted), FloatType]

/-- `IntegerType`. -/
def IntegerType : Parser SType :=
  choose [create (do
    let nm ← step (keyword "short")
    pure (SType.IntegerT false nm false)),
  create (do
    let nm ← step (keyword "long")
    let lng ← step OptionalLong
    pure (SType.IntegerT false nm lng))]

/-- `UnsignedIntegerType`. -/
def UnsignedIntegerType : Parser SType :=
  choose [create (do
    let _ ← step (keyword "unsigned")
    let t ← step IntegerType
    pure t.setUnsigned), IntegerType]

/-- `PrimitiveType`. -/
def PrimitiveType : Parser SType :=
  choose [UnsignedIntegerType, UnrestrictedFloatType,
          instanceOf (keyword "boolean") SType.Simple,
          instanceOf (keyword "byte") SType.Simple,
          instanceOf (keyword "octet") SType.Simple]

/-- `ConstType`. -/
def ConstType : Parser SType :=
  applyP (choose [PrimitiveType, instanceOf identifier SType.Simple]) NullR

/-- `BufferRelatedType`. -/
def BufferRelatedType : Parser SType :=
  instanceOf (choose (["ArrayBuffer", "DataView", "Int8Array", "Int16Array", "Int32Array",
    "Uint8Array", "Uint16Array", "Uint32Array", "Uint8ClampedArray", "Float32Array",
    "Float64Array"].map keyword)) SType.Simple

/-- `ArgumentNameKeyword` (the keyword list is copied verbatim from the
source, including its `dictioanry` misspelling). -/
def ArgumentNameKeyword : Parser TextSpan :=
  choose (["attribute", "callback", "const", "deleter", "dictioanry", "enum", "getter",
    "implements", "inherit", "interface", "iterable", "legacycaller", "maplike",
    "partial", "required", "serializer", "setlike", "setter", "static", "stringifier",
    "typedef", "unrestricted"].map keyword)

/-- `ArgumentName`. -/
def ArgumentName : Parser TextSpan := choose [ArgumentNameKeyword, identifier]

/-- `Ellipsis`. -/
def Ellipsis : Parser Bool := existsP (keyword "...")

/-- `Identifiers`. -/
def Identifiers (fuel : Nat) : Parser (List TextSpan) :=
  match fuel with
  | 0 => failP
  | fuel + 1 =>
    optional (create (do
      let _ ← step (other ",")
      let head ← step identifier
      let tail ← step (Identifiers fuel)
      pure ([head] ++ tail))) []

/-- `IdentifierList`. -/
def IdentifierList (fuel : Nat) : Parser (List TextSpan) :=
  create (do
    let head ← step identifier
    let tail ← step (Identifiers fuel)
    pure ([head] ++ tail))

/-- `ExtendedAttributeNoArgs`. -/
def ExtendedAttributeNoArgs : Parser SExtAttr :=
  instanceOf identifier SExtAttr.NoArgs

/-- `ExtendedAttributeIdent`: the source constructs an
`ExtendedAttributeArgList` whose `args` receives the right-hand identifier
span (a type confusion), modelled by the dedicated `ArgListSpan` variant. -/
def ExtendedAttributeIdent : Parser SExtAttr :=
  create (do
    let id ← step identifier
    let _ ← step (other "=")
    let ident ← step identifier
    pure (SExtAttr.ArgListSpan id ident))

/-- `ExtendedAttributeIdentList`. -/
def ExtendedAttributeIdentList (fuel : Nat) : Parser SExtAttr :=
  create (do
    let id ← step identifier
    let _ ← step (other "=")
    let _ ← step (other "(")
    let idents ← step (IdentifierList fuel)
    let _ ← step (other ")")
    pure (SExtAttr.IdentList id idents))

mutual

/-- `Type` of the grammar (renamed `TypeR`). -/
def TypeR (fuel : Nat) : Parser SType :=
  match fuel with
  | 0 => failP
  | fuel + 1 => choose [SingleType fuel, applyP (UnionType fuel) NullR]

/-- `SingleType`. -/
def SingleType (fuel : Nat) : Parser SType :=
  match fuel with
  | 0 => failP
  | fuel + 1 => choose [NonAnyType fuel, instanceOf (keyword "any") SType.Simple]

/-- `UnionType`. -/
def UnionType (fuel : Nat) : Parser SType :=
  match fuel with
  | 0 => failP
  | fuel + 1 =>
    create (do
      let _ ← step (other "(")
      let fst ← step (UnionMemberType fuel)
      let _ ← step (keyword "or")
      let snd ← step (UnionMemberType fuel)
      let rest ← step (UnionMemberTypes fuel)
      let _ ← step (other ")")
      pure (SType.Union ([fst, snd] ++ rest)))

/-- `UnionMemberType`. -/
def UnionMemberType (fuel : Nat) : Parser SType :=
  match fuel with
  | 0 => failP
  | fuel + 1 => choose [NonAnyType fuel, applyP (UnionType fuel) NullR]

/-- `UnionMemberTypes`. -/
def UnionMemberTypes (fuel : Nat) : Parser (List SType) :=
  match fuel with
  | 0 => failP
  | fuel + 1 =>
    optional (create (do
      let _ ← step (keyword "or")
      let t ← step (UnionMemberType fuel)
      let rest ← step (UnionMemberTypes fuel)
      pure ([t] ++ rest))) []

/-- `NonAnyType` (the alternative order is the source's). -/
def NonAnyType (fuel : Nat) : Parser SType :=
  match fuel with
  | 0 => failP
  | fuel + 1 =>
    choose [
      applyP PrimitiveType NullR,
      applyP (PromiseType fuel) NullR,
      applyP (instanceOf (keyword "ByteString") SType.Simple) NullR,
      applyP (instanceOf (keyword "DOMString") SType.Simple) NullR,
      applyP (instanceOf (keyword "USVString") SType.Simple) NullR,
      applyP (instanceOf identifier SType.Simple) NullR,
      applyP (create (do
        let _ ← step (keyword "sequence")
        let _ ← step (other "<")
        let t ← step (TypeR fuel)
        let _ ← step (other ">")
        pure (SType.Sequence t))) NullR,
      applyP (instanceOf (keyword "object") SType.Simple) NullR,
      applyP (instanceOf (keyword "RegExp") SType.Simple) NullR,
      applyP (instanceOf (keyword "Error") SType.Simple) NullR,
      applyP (instanceOf (keyword "DOMException") SType.Simple) NullR,
      applyP BufferRelatedType NullR,
      applyP (create (do
        let _ ← step (keyword "FrozenArray")
        let _ ← step (other "<")
        let t ← step (TypeR fuel)
        let _ ← step (other ">")
        pure (SType.FrozenArrayT t))) NullR]

/-- `PromiseType`. -/
def PromiseType (fuel : Nat) : Parser SType :=
  match fuel with
  | 0 => failP
  | fuel + 1 =>
    create (do
      let _ ← step (keyword "Promise")
      let _ ← step (other "<")
      let t ← step (TypeR fuel)
      let _ ← step (other ">")
      pure (SType.PromiseT t))

/-- `ArgumentList`. -/
def ArgumentList (fuel : Nat) : Parser (List SArgument) :=
  match fuel with
  | 0 => failP
  | fuel + 1 =>
    optional (create (do
      let arg ← step (Argument fuel)
      let args ← step (Arguments fuel)
      pure ([arg] ++ args))) []

/-- `Arguments`. -/
def Arguments (fuel : Nat) : Parser (List SArgument) :=
  match fuel with
  | 0 => failP
  | fuel + 1 =>
    optional (create (do
      let _ ← step (other ",")
      let arg ← step (Argument fuel)
      let args ← step (Arguments fuel)
      pure ([arg] ++ args))) []

/-- `Argument`. -/
def Argument (fuel : Nat) : Parser SArgument :=
  match fuel with
  | 0 => failP
  | fuel + 1 =>
    create (do
      let attributes ← step (ExtendedAttributeList fuel)
      let arg ← step (OptionalOrRequiredArgument fuel)
      pure (arg.withAttributes attributes))

/-- `OptionalOrRequiredArgument`. -/
def OptionalOrRequiredArgument (fuel : Nat) : Parser SArgument :=
  match fuel with
  | 0 => failP
  | fuel + 1 =>
    choose [create (do
      let _ ← step (keyword "optional")
      let type ← step (TypeR fuel)
      let nm ← step ArgumentName
      let defv ← step Default
      pure (SArgument.mk [] true type false nm defv)),
    create (do
      let type ← step (TypeR fuel)
      let variadic ← step Ellipsis
      let nm ← step ArgumentName
      pure (SArgument.mk [] false type variadic nm none))]

/-- `ExtendedAttributeList`. -/
def ExtendedAttributeList (fuel : Nat) : Parser (List SExtAttr) :=
  match fuel with
  | 0 => failP
  | fuel + 1 =>
    optional (create (do
      let _ ← step (other "[")
      let attrib ← step (ExtendedAttribute fuel)
      let attribs ← step (ExtendedAttributes fuel)
      let _ ← step (other "]")
      pure ([attrib] ++ attribs))) []

/-- `ExtendedAttributes`. -/
def ExtendedAttributes (fuel : Nat) : Parser (List SExtAttr) :=
  match fuel with
  | 0 => failP
  | fuel + 1 =>
    optional (create (do
      let _ ← step (other ",")
      let attrib ← step (ExtendedAttribute fuel)
      let attribs ← step (ExtendedAttributes fuel)
      pure ([attrib] ++ attribs))) []

/-- `ExtendedAttribute` ("Order is relevant": the fixed backtracking priority
named-arg-list, ident-list, ident, arg-list, no-args). -/
def ExtendedAttribute (fuel : Nat) : Parser SExtAttr :=
  match fuel with
  | 0 => failP
  | fuel + 1 =>
    choose_backtracking [ExtendedAttributeNamedArgList fuel, ExtendedAttributeIdentList fuel,
      ExtendedAttributeIdent, ExtendedAttributeArgList fuel, ExtendedAttributeNoArgs]

/-- `ExtendedAttributeArgList`. -/
def ExtendedAttributeArgList (fuel : Nat) : Parser SExtAttr :=
  match fuel with
  | 0 => failP
  | fuel + 1 =>
    create (do
      let id ← step identifier
      let _ ← step (other "(")
      let args ← step (ArgumentList fuel)
      let _ ← step (other ")")
      pure (SExtAttr.ArgList id args))

/-- `ExtendedAttributeNamedArgList`. -/
def ExtendedAttributeNamedArgList (fuel : Nat) : Parser SExtAttr :=
  match fuel with
  | 0 => failP
  | fuel + 1 =>
    create (do
      let id ← step identifier
      let _ ← step (other "=")
      let ident ← step identifier
      let _ ← step (other "(")
      let args ← step (ArgumentList fuel)
      let _ ← step (other ")")
      pure (SExtAttr.NamedArgList id ident args))

end

/-- `ReturnType` (`void` becomes a null return type, modelled as `none`). -/
def ReturnType (fuel : Nat) : Parser (Option SType) :=
  choose [map (TypeR fuel) some, map (keyword "void") (fun _ => none)]

/-- `OptionalIdentifier`. -/
def OptionalIdentifier : Parser (Option TextSpan) :=
  optional (map identifier some) none

/-- `OperationRest`. -/
def OperationRest (fuel : Nat) : Parser SInterfaceMember :=
  create (do
    let id ← step OptionalIdentifier
    let _ ← step (other "(")
    let args ← step (ArgumentList fuel)
    let _ ← step (other ")")
    let _ ← step (other ";")
    pure (SInterfaceMember.Operation [] id [] none args))

/-- `AttributeNameKeyword`. -/
def AttributeNameKeyword : Parser TextSpan := keyword "required"

/-- `AttributeName`. -/
def AttributeName : Parser TextSpan := choose [AttributeNameKeyword, identifier]

/-- `Inherit`. -/
def Inherit : Parser Bool := existsP (keyword "inherit")

/-- `ReadOnly`. -/
def ReadOnly : Parser Bool := existsP (keyword "readonly")

/-- `Required`. -/
def Required : Parser Bool := existsP (keyword "required")

/-- `AttributeRest`. -/
def AttributeRest (fuel : Nat) : Parser SInterfaceMember :=
  create (do
    let _ ← step (keyword "attribute")
    let type ← step (TypeR fuel)
    let nm ← step AttributeName
    let _ ← step (other ";")
    pure (SInterfaceMember.Attribute [] nm false false type))

/-- `StaticMemberRest`. -/
def StaticMemberRest (fuel : Nat) : Parser SInterfaceMember :=
  choose [create (do
    let readonly ← step ReadOnly
    let rest ← step (AttributeRest fuel)
    pure (rest.setReadonly readonly)),
  create (do
    let rtype ← step (ReturnType fuel)
    let rest ← step (OperationRest fuel)
    pure (rest.setRtype rtype))]

/-- `StaticMember`. -/
def StaticMember (fuel : Nat) : Parser SInterfaceMember :=
  create (do
    let _ ← step (keyword "static")
    let member ← step (StaticMemberRest fuel)
    pure (SInterfaceMember.Static [] member))

/-- `MaplikeRest`. -/
def MaplikeRest (fuel : Nat) : Parser SInterfaceMember :=
  create (do
    let _ ← step (keyword "maplike")
    let _ ← step (other "<")
    let key ← step (TypeR fuel)
    let _ ← step (other ",")
    let value ← step (TypeR fuel)
    let _ ← step (other ">")
    let _ ← step (other ";")
    pure (SInterfaceMember.MaplikeM [] false key value))

/-- `SetlikeRest`. -/
def SetlikeRest (fuel : Nat) : Parser SInterfaceMember :=
  create (do
    let _ ← step (keyword "setlike")
    let _ ← step (other "<")
    let value ← step (TypeR fuel)
    let _ ← step (other ">")
    let _ ← step (other ";")
    pure (SInterfaceMember.SetlikeM [] false value))

/-- `ReadWriteMaplike`. -/
def ReadWriteMaplike (fuel : Nat) : Parser SInterfaceMember := MaplikeRest fuel

/-- `ReadWriteSetlike`. -/
def ReadWriteSetlike (fuel : Nat) : Parser SInterfaceMember := SetlikeRest fuel

/-- `ReadonlyMemberRest`. -/
def ReadonlyMemberRest (fuel : Nat) : Parser SInterfaceMember :=
  choose [AttributeRest fuel, ReadWriteMaplike fuel, ReadWriteSetlike fuel]

/-- `ReadonlyMember`. -/
def ReadonlyMember (fuel : Nat) : Parser SInterfaceMember :=
  create (do
    let _ ← step (keyword "readonly")
    let rest ← step (ReadonlyMemberRest fuel)
    pure (rest.setReadonly true))

/-- `ReadWriteAttribute`. -/
def ReadWriteAttribute (fuel : Nat) : Parser SInterfaceMember :=
  choose [create (do
    let _ ← step (keyword "inherit")
    let readonly ← step ReadOnly
    let rest ← step (AttributeRest fuel)
    pure ((rest.setInherit true).setReadonly readonly)), AttributeRest fuel]

/-- `OptionalType`. -/
def OptionalType (fuel : Nat) : Parser (Option SType) :=
  optional (create (do
    let _ ← step (other ",")
    let t ← step (TypeR fuel)
    pure (some t))) none

/-- `Iterable`. -/
def Iterable (fuel : Nat) : Parser SInterfaceMember :=
  create (do
    let _ ← step (keyword "iterable")
    let _ ← step (other "<")
    let key ← step (TypeR fuel)
    let value ← step (OptionalType fuel)
    let _ ← step (other ">")
    let _ ← step (other ";")
    pure (match value with
      | some v => SInterfaceMember.IterableM [] (some key) v
      | none => SInterfaceMember.IterableM [] none key))

/-- `Special`. -/
def Special : Parser TextSpan :=
  choose [keyword "getter", keyword "setter", keyword "deleter", keyword "legacycaller"]

/-- `Specials`. -/
def Specials : Parser (List TextSpan) := many Special

/-- `SpecialOperation`. -/
def SpecialOperation (fuel : Nat) : Parser SInterfaceMember :=
  create (do
    let special ← step Special
    let specials ← step Specials
    let rtype ← step (ReturnType fuel)
    let rest ← step (OperationRest fuel)
    pure ((rest.setSpecials ([special] ++ specials)).setRtype rtype))

/-- `Operation`. -/
def Operation (fuel : Nat) : Parser SInterfaceMember :=
  choose [create (do
    let rtype ← step (ReturnType fuel)
    let rest ← step (OperationRest fuel)
    pure ((rest.setSpecials []).setRtype rtype)), SpecialOperation fuel]

/-- `Serializer` (an intentional `fail()` stub in the source). -/
def Serializer : Parser SInterfaceMember := failP

/-- `Stringifier` (an intentional `fail()` stub in the source). -/
def Stringifier : Parser SInterfaceMember := failP

/-- `Const`. -/
def Const (_fuel : Nat) : Parser SInterfaceMember :=
  create (do
    let _ ← step (keyword "const")
    let type ← step ConstType
    let id ← step identifier
    let _ ← step (other "=")
    let value ← step ConstValue
    let _ ← step (other ";")
    pure (SInterfaceMember.Const [] id type value))

/-- `InterfaceMember` (the alternative order is the source's). -/
def InterfaceMember (fuel : Nat) : Parser SInterfaceMember :=
  choose [Const fuel, Operation fuel, Serializer, Stringifier, StaticMember fuel,
    Iterable fuel, ReadonlyMember fuel, ReadWriteAttribute fuel, ReadWriteMaplike fuel,
    ReadWriteSetlike fuel]

/-- `Inheritance` (null fallback becomes `none`). -/
def Inheritance : Parser (Option TextSpan) :=
  optional (create (do
    let _ ← step (other ":")
    let id ← step identifier
    pure (some id))) none

mutual

/-- `EnumValueListComma`. -/
def EnumValueListComma (fuel : Nat) : Parser (List TextSpan) :=
  match fuel with
  | 0 => failP
  | fuel + 1 =>
    optional (create (do
      let _ ← step (other ",")
      let vs ← step (EnumValueListString fuel)
      pure vs)) []

/-- `EnumValueListString`. -/
def EnumValueListString (fuel : Nat) : Parser (List TextSpan) :=
  match fuel with
  | 0 => failP
  | fuel + 1 =>
    optional (create (do
      let first ← step (token .string none)
      let rest ← step (EnumValueListComma fuel)
      pure ([first] ++ rest))) []

end

/-- `EnumValueList`. -/
def EnumValueList (fuel : Nat) : Parser (List TextSpan) :=
  create (do
    let first ← step (token .string none)
    let rest ← step (EnumValueListComma fuel)
    pure ([first] ++ rest))

/-- `Enum`. -/
def Enum (fuel : Nat) : Parser SDefinition :=
  create (do
    let _ ← step (keyword "enum")
    let id ← step identifier
    let _ ← step (other "\x7b")
    let values ← step (EnumValueList fuel)
    let _ ← step (other "\x7d")
    let _ ← step (other ";")
    pure (SDefinition.EnumD [] id values))

/-- `Typedef`. -/
def Typedef (fuel : Nat) : Parser SDefinition :=
  create (do
    let _ ← step (keyword "typedef")
    let type ← step (TypeR fuel)
    let id ← step identifier
    let _ ← step (other ";")
    pure (SDefinition.TypedefD [] id type))

/-- `ImplementsStatement`. -/
def ImplementsStatement : Parser SDefinition :=
  create (do
    let id ← step identifier
    let _ ← step (keyword "implements")
    let nm ← step identifier
    let _ ← step (other ";")
    pure (SDefinition.ImplementsD [] id nm))

/-- `Partial` (an intentional `fail()` stub in the source; renamed to avoid a
reserved word). -/
def PartialRule : Parser SDefinition := failP

/-- `DictionaryMember`. -/
def DictionaryMember (fuel : Nat) : Parser SDictionaryMember :=
  create (do
    let required ← step Required
    let type ← step (TypeR fuel)
    let id ← step identifier
    let defv ← step Default
    let _ ← step (other ";")
    pure (SDictionaryMember.mk [] required type id defv))

mutual

/-- `Definitions`: the top-level rule; a list of definitions, each preceded by
an optional extended-attribute list that is attached to the built definition
after construction. -/
def Definitions (fuel : Nat) : Parser (List SDefinition) :=
  match fuel with
  | 0 => failP
  | fuel + 1 =>
    optional (create (do
      let attributes ← step (ExtendedAttributeList fuel)
      let definition ← step (Definition fuel)
      let rest ← step (Definitions fuel)
      pure ([definition.withAttributes attributes] ++ rest))) []

/-- `Definition` (the alternative order is the source's). -/
def Definition (fuel : Nat) : Parser SDefinition :=
  match fuel with
  | 0 => failP
  | fuel + 1 =>
    choose [CallbackOrInterface fuel, PartialRule, Dictionary fuel, Enum fuel,
      Typedef fuel, ImplementsStatement]

/-- `CallbackOrInterface`. -/
def CallbackOrInterface (fuel : Nat) : Parser SDefinition :=
  match fuel with
  | 0 => failP
  | fuel + 1 => choose [Interface fuel]

/-- `Interface`. -/
def Interface (fuel : Nat) : Parser SDefinition :=
  match fuel with
  | 0 => failP
  | fuel + 1 =>
    create (do
      let _ ← step (keyword "interface")
      let id ← step identifier
      let inheritance ← step Inheritance
      let _ ← step (other "\x7b")
      let members ← step (InterfaceMembers fuel)
      let _ ← step (other "\x7d")
      let _ ← step (other ";")
      pure (SDefinition.InterfaceD [] id inheritance members))

/-- `InterfaceMembers`. -/
def InterfaceMembers (fuel : Nat) : Parser (List SInterfaceMember) :=
  match fuel with
  | 0 => failP
  | fuel + 1 =>
    optional (create (do
      let attributes ← step (ExtendedAttributeList fuel)
      let member ← step (InterfaceMember fuel)
      let rest ← step (InterfaceMembers fuel)
      pure ([member.withAttributes attributes] ++ rest))) []

/-- `Dictionary`. -/
def Dictionary (fuel : Nat) : Parser SDefinition :=
  match fuel with
  | 0 => failP
  | fuel + 1 =>
    create (do
      let _ ← step (keyword "dictionary")
      let id ← step identifier
      let inheritance ← step Inheritance
      let _ ← step (other "\x7b")
      let members ← step (DictionaryMembers fuel)
      let _ ← step (other "\x7d")
      let _ ← step (other ";")
      pure (SDefinition.DictionaryD [] id inheritance members))

/-- `DictionaryMembers`. -/
def DictionaryMembers (fuel : Nat) : Parser (List SDictionaryMember) :=
  match fuel with
  | 0 => failP
  | fuel + 1 =>
    optional (create (do
      let attributes ← step (ExtendedAttributeList fuel)
      let member ← step (DictionaryMember fuel)
      let members ← step (DictionaryMembers fuel)
      pure ([member.withAttributes attributes] ++ members))) []

end

end grammar

/-- Fuel that is beyond the rule-nesting depth of every concrete input
considered here (each parsed construct burns a bounded number of units). -/
def GRAMMAR_FUEL : Nat := 100

/-- `parseDefinitions`, the grammar entry point exposed to collaborators. -/
def parseDefinitions : Parser (List SDefinition) := grammar.Definitions GRAMMAR_FUEL

/-
  Target AST, from the `model` namespace of src/typescript.ts.  The
  `InterfaceMember` classes extend `Statement` in the source, so `Method` and
  `Attribute` are constructors of the statement type here (interface members
  and the statements of a constructed-object type are both statement lists in
  the source).
-/

/-- `SimpleType` of the target AST. -/
structure TSimpleType where
  optional : Bool
  span : TextSpan
  deriving Repr

/-- `Argument` of the target AST (its `type` is a `SimpleType` by its class
signature). -/
structure TArgument where
  identifier : TextSpan
  optional : Bool
  type : TSimpleType
  deriving Repr

/-- `Value` of the target AST. -/
structure TValue where
  span : TextSpan
  deriving Repr

mutual

/-- `Type` of the target AST. -/
inductive TType where
  | SimpleT (s : TSimpleType)
  | Constructed (statements : List TStatement)
  | FunctionT (rtype : Option TType) (args : List TArgument)

/-- `Statement` of the target AST (including the `InterfaceMember`
subclasses `MethodMember` and `AttributeMember`; a method's identifier may be
null). -/
inductive TStatement where
  | InterfaceS (identifier : TextSpan) (inheritance : List (Option TextSpan))
      (members : List TStatement)
  | Declaration (identifier : TextSpan) (type : TType)
  | TypedefS (identifier : TextSpan) (type : TType)
  | EnumS (identifier : TextSpan) (options : List TextSpan)
  | Method (identifier : Option TextSpan) (optional : Bool) (rtype : Option TType)
      (args : List TArgument)
  | AttributeS (identifier : TextSpan) (optional : Bool) (type : TType)
      (defv : Option TValue)

end

/-- The `identifier` property of a target statement (a method's may be null). -/
def TStatement.identifierOf : TStatement → Option TextSpan
  | .InterfaceS i _ _ => some i
  | .Declaration i _ => some i
  | .TypedefS i _ => some i
  | .EnumS i _ => some i
  | .Method i _ _ _ => i
  | .AttributeS i _ _ _ => some i

/-
  Comparators and the emitter, from src/typescript.ts.
-/

/-- `cmp_many` of src/typescript.ts, verbatim: it receives the component
comparators and returns a comparator that ignores them and always answers 0. -/
def cmp_many {T : Type} (cmps : List (T → T → Int)) : T → T → Int :=
  fun _ _ => 0

/-- `cmp_map`: compare through a selector. -/
def cmp_map {T P : Type} (cmp : P → P → Int) (selector : T → P) : T → T → Int :=
  fun a b => cmp (selector a) (selector b)

/-- `cmp_str` (`localeCompare`), modelled as code-point string comparison; no
theorem below depends on the particular order it induces. -/
def cmp_str (a b : String) : Int :=
  if a < b then -1 else if b < a then 1 else 0

/-- `cmp_num`. -/
def cmp_num (a b : Int) : Int := a - b

/-- `cmp_span`: null spans order before non-null ones, non-null ones by
text. -/
def cmp_span (a b : Option TextSpan) : Int :=
  match a, b with
  | some _, none => 1
  | none, some _ => -1
  | some x, some y => cmp_str x.textD y.textD
  | none, none => 0

/-- The `ClassificationVisitor`: methods classify as 0, attributes as 1.  The
source visitor defines only these two cases; it is only ever applied to
interface members, so the remaining constructors (unreachable there) answer
0. -/
def classification : TStatement → Int
  | .Method .. => 0
  | .AttributeS .. => 1
  | _ => 0

/-- `cmp_mem_type`: compare members by kind class. -/
def cmp_mem_type (a b : TStatement) : Int :=
  cmp_num (classification a) (classification b)

/-- Stable insertion of an element into a sorted list: the element passes a
later element only when the comparator orders it strictly earlier. -/
def jsInsert {α : Type} (cmp : α → α → Int) (a : α) (l : List α) : List α :=
  match l with
  | [] => [a]
  | b :: rest => if cmp a b ≤ 0 then a :: b :: rest else b :: jsInsert cmp a rest

/-- `Array.prototype.sort(cmp)` as a stable sort (ES2019 requires sort
stability), modelled as stable insertion sort: elements the comparator ties
keep their original relative order. -/
def jsSortStable {α : Type} (cmp : α → α → Int) : List α → List α
  | [] => []
  | a :: rest => jsInsert cmp a (jsSortStable cmp rest)

/-- The member comparator built at the two sort sites of the emitter:
`cmp_many(cmp_mem_type, cmp_map(cmp_span, mem => mem.identifier))`. -/
def memCmp : TStatement → TStatement → Int :=
  cmp_many [cmp_mem_type, cmp_map cmp_span TStatement.identifierOf]

/-- The `Writer` of src/typescript.ts: an output buffer with an indentation
counter and a lazily applied indentation flag (`begin` in the source, renamed
`lineBegin`; `begin` is reserved here). -/
structure Writer where
  linebreak : String
  space : String
  tab : String
  text : String
  indentation : Int
  lineBegin : Bool
  deriving Repr

/-- The `Writer` constructor with its default arguments. -/
def Writer.init : Writer :=
  { linebreak := "\r\n", space := " ", tab := "\t", text := "", indentation := 0,
    lineBegin := true }

/-- `this.tab.repeat(this.indentation)`.  `String.repeat` of JS throws on a
negative count; the indentation counter never becomes negative (proved below),
so taking the count's non-negative part is exact. -/
def tabRepeat (tab : String) (n : Int) : String :=
  String.join (List.replicate n.toNat tab)

/-- `Writer.append`: lazily emit the indentation at the start of a line, then
the texts joined by the space separator. -/
def Writer.append (w : Writer) (texts : List String) : Writer :=
  let w1 :=
    if w.lineBegin then
      { w with text := w.text ++ tabRepeat w.tab w.indentation, lineBegin := false }
    else w
  let w2 := { w1 with text := w1.text ++ String.intercalate w1.space texts }
  if 0 < texts.length then { w2 with lineBegin := false } else w2

/-- `Writer.appendln`: append the texts plus the linebreak (joined by the
space separator like any other append), then mark the next line as fresh. -/
def Writer.appendln (w : Writer) (texts : List String) : Writer :=
  { w.append (texts ++ [w.linebreak]) with lineBegin := true }

/-- `Writer.indent`. -/
def Writer.indent (w : Writer) : Writer :=
  { w with indentation := w.indentation + 1 }

/-- `Writer.unindent`: clamped at 0. -/
def Writer.unindent (w : Writer) : Writer :=
  { w with indentation := max 0 (w.indentation - 1) }

/-- `Emitter.visitArgument`. -/
def emitArgument (arg : TArgument) (w : Writer) : Writer :=
  let w := w.append [arg.identifier.textD]
  let w := if arg.optional then w.append ["?"] else w
  w.append [":", arg.type.span.textD]

/-- The argument loop shared by `visitMethodMember` and `visitFunctionType`:
every argument but the last is followed by a comma. -/
def emitArgs (args : List TArgument) (w : Writer) : Writer :=
  args.enum.foldl
    (fun w p =>
      let w := emitArgument p.2 w
      if p.1 ≠ args.length - 1 then w.append [",", ""] else w) w

mutual

/-- The `Emitter` statement dispatch of src/typescript.ts
(`visitInterface`, `visitDeclaration`, `visitTypedef`, `visitEnum`,
`visitMethodMember`, `visitAttributeMember`), with fuel standing for the
visitor's call-stack depth (bounded by the nesting depth of the tree; the
fuel-0 branch is unreachable for sufficient fuel). -/
def emitStatement (fuel : Nat) (stmt : TStatement) (w : Writer) : Writer :=
  match fuel with
  | 0 => w
  | fuel + 1 =>
    match stmt with
    | .InterfaceS id inheritance members =>
      let w := w.append ["interface", id.textD]
      let inhSorted := jsSortStable cmp_span inheritance
      let spans := (inhSorted.filterMap (fun s => s)).map TextSpan.textD
      let w :=
        if 0 < spans.length then
          w.append ["", "extends", String.intercalate ", " spans]
        else w
      let w := (w.appendln ["", "\x7b"]).indent
      let w := (jsSortStable memCmp members).foldl (fun w m => emitStatement fuel m w) w
      (w.unindent).appendln ["\x7d"]
    | .Declaration id type =>
      let w := (w.append ["declare", "var", id.textD]).append [":", ""]
      let w := emitType fuel type w
      w.appendln [";"]
    | .TypedefS id type =>
      let w := w.append ["declare", "type", id.textD, "=", ""]
      let w := emitType fuel type w
      w.appendln [";"]
    | .EnumS id options =>
      let optionsText := String.intercalate " | " (options.map TextSpan.textD)
      (w.append ["declare", "type", id.textD, "=", optionsText]).appendln [";"]
    | .Method id _ rtype args =>
      match id with
      | none => w
      | some idSpan =>
        let w := (w.append [idSpan.textD]).append ["("]
        let w := emitArgs args w
        let w := (w.append [")"]).append [":", ""]
        let w :=
          match rtype with
          | some t => emitType fuel t w
          | none => w.append ["void"]
        w.appendln [";"]
    | .AttributeS id opt type _ =>
      let w := w.append [id.textD]
      let w := if opt then w.append ["?"] else w
      let w := w.append [":", ""]
      let w := emitType fuel type w
      w.appendln [";"]

/-- The `Emitter` type dispatch (`visitSimpleType`, `visitConstructedType`,
`visitFunctionType`). -/
def emitType (fuel : Nat) (type : TType) (w : Writer) : Writer :=
  match fuel with
  | 0 => w
  | fuel + 1 =>
    match type with
    | .SimpleT s => w.append [s.span.textD]
    | .Constructed statements =>
      let w := (w.appendln ["\x7b"]).indent
      let w := (jsSortStable memCmp statements).foldl (fun w s => emitStatement fuel s w) w
      (w.unindent).append ["\x7d"]
    | .FunctionT rtype args =>
      let w := w.append ["("]
      let w := emitArgs args w
      let w := w.append [")", "=>", ""]
      let w :=
        match rtype with
        | some t => emitType fuel t w
        | none => w.append ["void"]
      w.appendln [";"]

end

/-- Fuel beyond the nesting depth of every tree emitted here. -/
def EMIT_FUEL : Nat := 100

/-- `emit` (cmd.ts): write every statement through one emitter/writer pair and
read the buffer. -/
def emit (statements : List TStatement) : String :=
  (statements.foldl (fun w s => emitStatement EMIT_FUEL s w) Writer.init).text

/-
  Type mapping and declaration generator, from src/typescript.ts.
-/

/-- `TypeMapping.primitive`. -/
def primitive (text : String) : String :=
  if text = "ByteString" ∨ text = "DOMString" ∨ text = "USVString" then "string"
  else if text = "byte" ∨ text = "octet" then "number"
  else text

/-- The `TypeMapping` visitor: lower a source type to one flattened simple
type (fuel as in the emitter). -/
def mapType (fuel : Nat) (t : SType) : TSimpleType :=
  match fuel with
  | 0 => { optional := false, span := { text := some "", position := -1 } }
  | fuel + 1 =>
    match t with
    | .Simple span =>
      { optional := false, span := { text := some (primitive span.textD), position := -1 } }
    | .Nullable t2 => { optional := true, span := (mapType fuel t2).span }
    | .Sequence t2 =>
      { optional := false,
        span := { text := some ((mapType fuel t2).span.textD ++ "[]"), position := -1 } }
    | .FrozenArrayT t2 =>
      { optional := false,
        span := { text := some ((mapType fuel t2).span.textD ++ "[]"), position := -1 } }
    | .PromiseT t2 =>
      { optional := false,
        span := { text := some ("Promise<" ++ (mapType fuel t2).span.textD ++ ">"),
                  position := -1 } }
    | .Union ts =>
      { optional := false,
        span := { text := some ("(" ++ String.intercalate " | "
                    (ts.map (fun t2 => (mapType fuel t2).span.textD)) ++ ")"),
                  position := -1 } }
    | .FloatT _ _ => { optional := false, span := { text := some "number", position := -1 } }
    | .IntegerT _ _ _ =>
      { optional := false, span := { text := some "number", position := -1 } }

/-- `Generator.argument`. -/
def genArgument (fuel : Nat) (arg : SArgument) : TArgument :=
  { identifier := arg.identifier, optional := arg.optional, type := mapType fuel arg.type }

/-- `lookupMany`: the attributes whose identifier text equals the given
name. -/
def lookupMany (options : List SExtAttr) (ident : String) : List SExtAttr :=
  options.filter (fun o => o.identifier.text = some ident)

/-- `InterfaceDefinition.getConstructors`. -/
def getConstructors (attrs : List SExtAttr) : List SExtAttr :=
  lookupMany attrs "Constructor" ++ lookupMany attrs "NamedConstructor"

/-- The `instanceof StaticMember` test. -/
def SInterfaceMember.isStatic : SInterfaceMember → Bool
  | .Static .. => true
  | _ => false

/-- The member cases of the `Generator` visitor (`visitConstMember`,
`visitAttributeMember`, `visitOperationMember`, and the empty lowerings of
static/iterable/maplike/setlike members). -/
def genMember (fuel : Nat) (m : SInterfaceMember) : List TStatement :=
  match m with
  | .Const _ id type _ =>
    [.AttributeS id false (.SimpleT (mapType fuel type)) none]
  | .Attribute _ id _ _ type =>
    [.AttributeS id false (.SimpleT (mapType fuel type)) none]
  | .Operation _ id _ rtype args =>
    [.Method id false (rtype.map (fun t => .SimpleT (mapType fuel t)))
      (args.map (genArgument fuel))]
  | .Static .. => []
  | .IterableM .. => []
  | .MaplikeM .. => []
  | .SetlikeM .. => []

/-- `Generator.visitInterfaceDefinition`: the interface statement over the
non-static members, plus — when the synthetic `prototype` attribute is not
alone among the static statements — a `declare var` whose constructed-object
type holds the static members and one `new` signature per constructor
attribute.  A constructor attribute that is an `ExtendedAttributeArgList`
contributes its argument list (the `ArgListSpan` node of the
`ExtendedAttributeIdent` type confusion satisfies the same `instanceof` test
but would crash the source mapping over its span-valued `args`; it is given an
empty argument list here and is unreachable in the claims). -/
def genInterfaceD (fuel : Nat) (id : TextSpan) (inheritance : Option TextSpan)
    (members : List SInterfaceMember) (attributes : List SExtAttr) : List TStatement :=
  let mems := ((members.filter (fun m => !m.isStatic)).map (genMember fuel)).flatten
  let stmt := TStatement.InterfaceS id [inheritance] mems
  let ref : TSimpleType := { optional := false, span := id }
  let static_statements : List TStatement :=
    [TStatement.AttributeS { text := some "prototype", position := -1 } false
      (.SimpleT ref) none] ++
    ((members.filter (fun m => m.isStatic)).map (genMember fuel)).flatten
  let static_statements : List TStatement := static_statements ++
    (getConstructors attributes).map (fun attr =>
      match attr with
      | .ArgList _ args =>
        TStatement.Method (some { text := some "new", position := -1 }) false
          (some (.SimpleT ref)) (args.map (genArgument fuel))
      | .ArgListSpan _ _ =>
        TStatement.Method (some { text := some "new", position := -1 }) false
          (some (.SimpleT ref)) []
      | _ =>
        TStatement.Method (some { text := some "new", position := -1 }) false
          (some (.SimpleT ref)) [])
  if 1 < static_statements.length then
    [stmt, TStatement.Declaration id (.Constructed static_statements)]
  else [stmt]

/-- `Generator.visitDictionaryMember`: every dictionary member lowers to an
optional attribute. -/
def genDictMember (fuel : Nat) (m : SDictionaryMember) : List TStatement :=
  [.AttributeS m.identifier true (.SimpleT (mapType fuel m.type)) none]

/-- The definition cases of the `Generator` visitor.  `visitCallbackDefinition`
reads `rtype`/`args` properties that the `CallbackDefinition` class does not
declare (always undefined; the grammar cannot produce a callback definition),
modelled as a void function type with no arguments. -/
def genDefinition (fuel : Nat) (d : SDefinition) : List TStatement :=
  match d with
  | .CallbackD _ id => [.TypedefS id (.FunctionT none [])]
  | .InterfaceD attrs id inh members => genInterfaceD fuel id inh members attrs
  | .DictionaryD _ id inh members =>
    [.InterfaceS id [inh] ((members.map (genDictMember fuel)).flatten)]
  | .EnumD _ id values => [.EnumS id values]
  | .TypedefD _ id type => [.TypedefS id (.SimpleT (mapType fuel type))]
  | .ImplementsD _ id nm => genInterfaceD fuel id (some nm) [] []

/-- `generate` (cmd.ts): lower every definition and concatenate. -/
def generate (defs : List SDefinition) : List TStatement :=
  (defs.map (genDefinition EMIT_FUEL)).flatten

/-- The whitespace/comment filter applied between the tokenizer and the
grammar by every consumer in the repository. -/
def lexFilter (ts : List Token) : List Token :=
  ts.filter (fun t => t.kind != TokenKind.whitespace && t.kind != TokenKind.comment)

/-- The full pipeline as wired in cmd.ts and §6 of the spec: tokenize, filter
whitespace and comments, parse the Definitions grammar — accepting only when
the parse succeeds and exactly the end-of-file token remains — then generate
and emit.  `none` models the error paths (a lexical error or a rejected
parse). -/
def pipeline (input : List Char) : Option String :=
  match tokenize input with
  | .error _ => none
  | .ok ts =>
    match parseDefinitions (lexFilter ts) with
    | .done _ defs rest _ =>
      match rest with
      | [t] => if t.kind = TokenKind.eof then some (emit (generate defs)) else none
      | _ => none
    | .failed .. => none

/-- Tokenize and filter, for feeding the grammar directly (the tokenizer never
reaches its error branch — proved below — so the empty-list fallback is
unreachable). -/
def lexed (input : List Char) : List Token :=
  match tokenize input with
  | .ok ts => lexFilter ts
  | .error _ => []

/-- Substring test over character lists (used by the statements about emitted
output). -/
def containsSub (pat : List Char) (l : List Char) : Bool :=
  pat.isPrefixOf l ||
    match l with
    | [] => false
    | _ :: rest => containsSub pat rest

/-- One call against a `Writer`, for quantifying over arbitrary call
sequences. -/
inductive WriterOp where
  | append (texts : List String)
  | appendln (texts : List String)
  | indent
  | unindent

/-- Apply one writer call. -/
def applyOp (w : Writer) (op : WriterOp) : Writer :=
  match op with
  | .append ts => w.append ts
  | .appendln ts => w.appendln ts
  | .indent => w.indent
  | .unindent => w.unindent

/-- Apply a call sequence left to right. -/
def applyOps (w : Writer) (ops : List WriterOp) : Writer := ops.foldl applyOp w

/-- A concrete token list for exercising the combinators: an `interface`
keyword followed by a semicolon. -/
def sampleTokens : List Token :=
  [{ kind := .keyword, span := { text := some "interface", position := 0 } },
   { kind := .other, span := { text := some ";", position := 9 } }]

/-- A parser that, on `sampleTokens`, consumes the keyword and then fails on
the missing identifier: a consuming failure. -/
def sampleConsumingFail : Parser TextSpan :=
  create (do
    let _ ← step (token .keyword (some "interface"))
    let x ← step (token .identifier none)
    pure x)

/-- A parser that fails on `sampleTokens` without consuming (it expects an
identifier first). -/
def sampleNonconsumingFail : Parser TextSpan := token .identifier none

/-- A second non-consuming failing parser (it expects a string literal). -/
def sampleNonconsumingFail2 : Parser TextSpan := token .string none

/-- The input of the pipeline claim about constants. -/
def c2input : List Char :=
  "typedef short Count; interface A \x7b const Count MAX = 10; \x7d;".data

/-- The output the pipeline produces for `c2input`. -/
def c2output : String :=
  "declare type Count = number; \r\ninterface A \x7b \r\n\tMAX: Count; \r\n\x7d \r\n"

/-- The input of the enum-lowering claim. -/
def c3input : List Char := "enum Color \x7b \"red\", \"green\" \x7d;".data

/-- The output the pipeline produces for `c3input`. -/
def c3output : String := "declare type Color = \"red\" | \"green\"; \r\n"

/-- The input of the member-ordering claim: an interface declaring an
attribute `b` before a method `a` (the claimed canonical order would emit the
method first). -/
def c1input : List Char := "interface I \x7b attribute long b; void a(); \x7d;".data

/-- The output the pipeline produces for `c1input`: the members appear in
declaration order, attribute `b` first. -/
def c1output : String :=
  "interface I \x7b \r\n\tb: number; \r\n\ta(): void; \r\n\x7d \r\n"

/-
  Theorems.  Helper lemmas come first; the claim theorems follow, with claim
  identifiers in their doc comments.
-/

/-- A `choose` scan over alternatives that all fail without consuming returns
a non-consuming failure accumulating every error list in order. -/
theorem chooseGo_all_fail {T : Type} (tokens : List Token) :
    ∀ (qs : List (Parser T)) (errs : List ParserError),
      (∀ p ∈ qs, (p tokens).success = false ∧ (p tokens).consumed = false) →
      chooseGo tokens errs qs =
        .failed false tokens (errs ++ (qs.map (fun p => (p tokens).errors)).flatten) := by
  intro qs
  induction qs with
  | nil => intro errs _; simp [chooseGo]
  | cons p ps ih =>
    intro errs h
    have hp := h p (List.mem_cons_self p ps)
    rcases hpr : p tokens with ⟨c, v, r, e⟩ | ⟨c, r, e⟩
    · rw [hpr] at hp; simp [ParseResult.success] at hp
    · have hc : c = false := by
        have h2 := hp.2
        rw [hpr] at h2
        simpa [ParseResult.consumed] using h2
      subst hc
      have hrec := ih (errs ++ e) (fun q hq => h q (List.mem_cons_of_mem p hq))
      simp only [chooseGo, hpr, Bool.false_eq_true, if_false, hrec, List.map_cons,
        List.flatten_cons, List.append_assoc, ParseResult.errors]

/-- A `choose_backtracking` scan over alternatives that all fail returns a
non-consuming failure accumulating every error list in order, on the original
tokens. -/
theorem chooseBackGo_all_fail {T : Type} (tokens : List Token) :
    ∀ (qs : List (Parser T)) (errs : List ParserError),
      (∀ p ∈ qs, (p tokens).success = false) →
      chooseBackGo tokens errs qs =
        .failed false tokens (errs ++ (qs.map (fun p => (p tokens).errors)).flatten) := by
  intro qs
  induction qs with
  | nil => intro errs _; simp [chooseBackGo]
  | cons p ps ih =>
    intro errs h
    have hp := h p (List.mem_cons_self p ps)
    rcases hpr : p tokens with ⟨c, v, r, e⟩ | ⟨c, r, e⟩
    · rw [hpr] at hp; simp [ParseResult.success] at hp
    · have hrec := ih (errs ++ e) (fun q hq => h q (List.mem_cons_of_mem p hq))
      simp only [chooseBackGo, hpr, hrec, List.map_cons, List.flatten_cons,
        List.append_assoc, ParseResult.errors]

/-- `Writer.append` leaves the indentation counter unchanged. -/
theorem Writer.append_indentation (w : Writer) (ts : List String) :
    (w.append ts).indentation = w.indentation := by
  unfold Writer.append
  split
  · split <;> rfl
  · split <;> rfl

/-- `Writer.appendln` leaves the indentation counter unchanged. -/
theorem Writer.appendln_indentation (w : Writer) (ts : List String) :
    (w.appendln ts).indentation = w.indentation := by
  show (w.append (ts ++ [w.linebreak])).indentation = w.indentation
  exact Writer.append_indentation w _

/-- C5: `choose` commits on consumption.  First conjunct: when the first
alternative fails after having consumed input, `choose` returns that failure
unchanged — the result does not depend on the remaining alternatives, which
are therefore never consulted.  Second conjunct: when every alternative fails
without consuming, `choose` returns a non-consuming failure whose error list
is the concatenation of all the alternatives' error lists in order. -/
theorem choose_commit {T : Type} (tokens : List Token) :
    (∀ (A : Parser T) (ps : List (Parser T)),
      (A tokens).success = false → (A tokens).consumed = true →
        choose (A :: ps) tokens = A tokens) ∧
    (∀ qs : List (Parser T),
      (∀ p ∈ qs, (p tokens).success = false ∧ (p tokens).consumed = false) →
        choose qs tokens =
          .failed false tokens ((qs.map (fun p => (p tokens).errors)).flatten)) := by
  constructor
  · intro A ps hs hc
    rcases hpr : A tokens with ⟨c, v, r, e⟩ | ⟨c, r, e⟩
    · rw [hpr] at hs; simp [ParseResult.success] at hs
    · have : c = true := by
        rw [hpr] at hc; simpa [ParseResult.consumed] using hc
      subst this
      simp [choose, chooseGo, hpr]
  · intro qs h
    simpa [choose] using chooseGo_all_fail tokens qs [] h

/-- Witness for C5 at concrete parsers: `sampleConsumingFail` consumes the
keyword of `sampleTokens` and then fails, so `choose` returns its result
without consulting the second alternative; and two non-consuming failing
alternatives aggregate their errors. -/
theorem choose_commit_witness :
    choose [sampleConsumingFail, sampleNonconsumingFail] sampleTokens =
      sampleConsumingFail sampleTokens ∧
    choose [sampleNonconsumingFail, sampleNonconsumingFail2] sampleTokens =
      .failed false sampleTokens
        (([sampleNonconsumingFail, sampleNonconsumingFail2].map
            (fun p => (p sampleTokens).errors)).flatten) := by
  constructor
  · exact (choose_commit sampleTokens).1 sampleConsumingFail [sampleNonconsumingFail]
      (by rfl) (by rfl)
  · refine (choose_commit sampleTokens).2 _ ?_
    intro p hp
    rcases List.mem_cons.mp hp with rfl | hp2
    · exact ⟨rfl, rfl⟩
    · rcases List.mem_cons.mp hp2 with rfl | hp3
      · exact ⟨rfl, rfl⟩
      · cases hp3

/-- C6: the `many` contract.  First conjunct: when the first application of
the parser fails without consuming, `many` succeeds with the empty list, no
consumption, and the original tokens as rest.  Second: at any loop state, an
iteration failing without consuming ends the loop successfully with the values
gathered so far and `consumed` as accumulated from the earlier iterations.
Third: at any loop state, an iteration failing after consuming fails the whole
`many` (no partial list), with the failing iteration's errors and the original
tokens as rest. -/
theorem many_contract {T : Type} (p : Parser T) (tokens : List Token) :
    ((p tokens).success = false → (p tokens).consumed = false →
      many p tokens = .done false [] tokens []) ∧
    (∀ (fuel : Nat) (values : List T) (consumed : Bool) (rest : List Token),
      (p rest).success = false → (p rest).consumed = false →
        manyGo p tokens (fuel + 1) rest values consumed = .done consumed values rest []) ∧
    (∀ (fuel : Nat) (values : List T) (consumed : Bool) (rest : List Token),
      (p rest).success = false → (p rest).consumed = true →
        manyGo p tokens (fuel + 1) rest values consumed =
          .failed true tokens (p rest).errors) := by
  refine ⟨?con1, ?con2, ?con3⟩
  · intro hs hc
    rcases hpr : p tokens with ⟨c, v, r, e⟩ | ⟨c, r, e⟩
    · rw [hpr] at hs; simp [ParseResult.success] at hs
    · have : c = false := by
        rw [hpr] at hc; simpa [ParseResult.consumed] using hc
      subst this
      simp [many, manyGo, hpr]
  · intro fuel values consumed rest hs hc
    rcases hpr : p rest with ⟨c, v, r, e⟩ | ⟨c, r, e⟩
    · rw [hpr] at hs; simp [ParseResult.success] at hs
    · have : c = false := by
        rw [hpr] at hc; simpa [ParseResult.consumed] using hc
      subst this
      simp [manyGo, hpr]
  · intro fuel values consumed rest hs hc
    rcases hpr : p rest with ⟨c, v, r, e⟩ | ⟨c, r, e⟩
    · rw [hpr] at hs; simp [ParseResult.success] at hs
    · have : c = true := by
        rw [hpr] at hc; simpa [ParseResult.consumed] using hc
      subst this
      simp [manyGo, hpr, ParseResult.errors]

/-- Witness for C6 at concrete parsers: zero matches give an empty-list
success; a mid-loop non-consuming failure keeps the accumulated state; a
consuming failure fails the whole repetition with the sub-parser's errors. -/
theorem many_contract_witness :
    many sampleNonconsumingFail sampleTokens = .done false [] sampleTokens [] ∧
    manyGo sampleNonconsumingFail sampleTokens 1 sampleTokens [] true =
      .done true [] sampleTokens [] ∧
    manyGo sampleConsumingFail [] 1 sampleTokens [] false =
      .failed true [] (sampleConsumingFail sampleTokens).errors := by
  refine ⟨?wit1, ?wit2, ?wit3⟩
  · exact (many_contract sampleNonconsumingFail sampleTokens).1 rfl rfl
  · exact (many_contract sampleNonconsumingFail sampleTokens).2.1 0 [] true sampleTokens
      rfl rfl
  · exact (many_contract sampleConsumingFail []).2.2 0 [] false sampleTokens rfl rfl

/-- C9: when every alternative of `choose_backtracking` fails — consuming or
not — the aggregated result is a non-consuming failure on the original token
list carrying all alternatives' errors in order, so an enclosing `optional`
(and likewise `choose`) treats the whole failed backtracking choice as a
non-consuming failure: `optional` substitutes its fallback. -/
theorem choose_backtracking_nonconsuming {T : Type} (ps : List (Parser T))
    (tokens : List Token) (h : ∀ p ∈ ps, (p tokens).success = false) :
    choose_backtracking ps tokens =
      .failed false tokens ((ps.map (fun p => (p tokens).errors)).flatten) ∧
    ∀ fb : T, optional (choose_backtracking ps) fb tokens = .done false fb tokens [] := by
  have main : choose_backtracking ps tokens =
      .failed false tokens ((ps.map (fun p => (p tokens).errors)).flatten) := by
    simpa [choose_backtracking] using chooseBackGo_all_fail tokens ps [] h
  refine ⟨main, fun fb => ?_⟩
  simp [optional, main]

/-- Witness for C9 at concrete parsers, with a first alternative that fails
after consuming: the aggregate is still non-consuming with the original rest,
and `optional` around it succeeds with the fallback. -/
theorem choose_backtracking_nonconsuming_witness :
    choose_backtracking [sampleConsumingFail, sampleNonconsumingFail] sampleTokens =
      .failed false sampleTokens
        (([sampleConsumingFail, sampleNonconsumingFail].map
            (fun p => (p sampleTokens).errors)).flatten) ∧
    optional (choose_backtracking [sampleConsumingFail, sampleNonconsumingFail])
      (⟨none, -1⟩ : TextSpan) sampleTokens =
      .done false (⟨none, -1⟩ : TextSpan) sampleTokens [] := by
  have h := choose_backtracking_nonconsuming
    [sampleConsumingFail, sampleNonconsumingFail] sampleTokens (by
      intro p hp
      rcases List.mem_cons.mp hp with rfl | hp2
      · rfl
      · rcases List.mem_cons.mp hp2 with rfl | hp3
        · rfl
        · cases hp3)
  exact ⟨h.1, h.2 ⟨none, -1⟩⟩

/-- C10: the writer's indentation counter never becomes negative: it starts
at 0, `indent` adds one, `unindent` clamps at 0; `append`/`appendln` leave it
unchanged, so after any call sequence — also one with more unindents than
indents — the counter is non-negative, and the lazily written line prefix
`tab.repeat(indentation)` always receives a non-negative repetition count. -/
theorem writer_indentation_invariant :
    Writer.init.indentation = 0 ∧
    (∀ w : Writer, w.indent.indentation = w.indentation + 1) ∧
    (∀ w : Writer, w.unindent.indentation = max 0 (w.indentation - 1)) ∧
    (∀ (w : Writer) (ops : List WriterOp), 0 ≤ w.indentation →
      0 ≤ (applyOps w ops).indentation) := by
  refine ⟨rfl, fun w => rfl, fun w => rfl, ?_⟩
  intro w ops
  induction ops generalizing w with
  | nil => intro h; simpa [applyOps] using h
  | cons op rest ih =>
    intro h
    have hstep : 0 ≤ (applyOp w op).indentation := by
      cases op with
      | append ts => rw [applyOp, Writer.append_indentation]; exact h
      | appendln ts => rw [applyOp, Writer.appendln_indentation]; exact h
      | indent => simp only [applyOp, Writer.indent]; omega
      | unindent => simp only [applyOp, Writer.unindent]; omega
    simpa [applyOps, List.foldl_cons] using ih (applyOp w op) hstep

/-- Witness for C10 on a concrete call sequence with more unindents than
indents, starting from the freshly constructed writer. -/
theorem writer_indentation_invariant_witness :
    0 ≤ (applyOps Writer.init
      [.unindent, .unindent, .appendln ["x"], .indent, .unindent, .unindent]).indentation :=
  writer_indentation_invariant.2.2.2 Writer.init
    [.unindent, .unindent, .appendln ["x"], .indent, .unindent, .unindent] (by decide)

/-- C8: parsing the tokenized, whitespace/comment-filtered input
`interface \x7b \x7d;` with the Definitions grammar returns a structured
failure — a plain result value, the embedded engine being a total function,
mirroring the source engine's no-exception contract — with success = false
and exactly one error, whose expected token has the identifier kind (and
whose offending token is the opening brace). -/
theorem malformed_interface_missing_identifier :
    (parseDefinitions (lexed "interface \x7b \x7d;".data)).success = false ∧
    (parseDefinitions (lexed "interface \x7b \x7d;".data)).errors =
      [{ expected := some { kind := .identifier, span := { text := none, position := -1 } },
         got := some { kind := .other, span := { text := some "\x7b", position := 10 } } }] :=
  ⟨rfl, rfl⟩

/-- C1 (code bug): the emitter does not reorder members.  `cmp_many` ignores
the comparators handed to it and always answers 0, so the stable member sorts
of `visitInterface` and `visitConstructedType` are the identity (first
conjunct, for every comparator list), and on an interface declaring attribute
`b` before method `a` the pipeline emits `b: number;` before `a(): void;` —
not the claimed methods-before-attributes, lexicographic order. -/
theorem emitter_keeps_declaration_order :
    (∀ (T : Type) (cmps : List (T → T → Int)) (l : List T),
      jsSortStable (cmp_many cmps) l = l) ∧
    pipeline c1input = some c1output := by
  constructor
  · intro T cmps l
    induction l with
    | nil => rfl
    | cons a rest ih =>
      rw [jsSortStable, ih]
      cases rest with
      | nil => rfl
      | cons b l2 => simp [jsInsert, cmp_many]
  · rfl

/-- C2 counterexample: on the input
`typedef short Count; interface A \x7b const Count MAX = 10; \x7d;` the
pipeline emits the constant as the attribute `MAX: Count` — typedefs are not
resolved — so, contrary to the claim, the output does not contain an attribute
`MAX: number`; the full output is computed exactly. -/
theorem pipeline_const_member_counterexample :
    pipeline c2input = some c2output ∧
    containsSub "MAX: number".data c2output.data = false :=
  ⟨rfl, rfl⟩

/-- C2 amended: the pipeline output on that input contains the type alias
`Count = number` and an interface `A` whose member is the attribute
`MAX: Count` (the const's named type passes through the mapping by name;
only the typedef's own right-hand side is lowered to `number`). -/
theorem pipeline_const_member_amended :
    pipeline c2input = some c2output ∧
    containsSub "declare type Count = number;".data c2output.data = true ∧
    containsSub "interface A".data c2output.data = true ∧
    containsSub "MAX: Count;".data c2output.data = true :=
  ⟨rfl, rfl, rfl, rfl⟩

/-- C3 counterexample: generating and emitting `enum Color ...` produces the
single line `declare type Color = "red" | "green";` — the output contains no
`string` alias and no comment line at all, contrary to the claim. -/
theorem enum_emission_counterexample :
    pipeline c3input = some c3output ∧
    containsSub "string".data c3output.data = false ∧
    containsSub "//".data c3output.data = false :=
  ⟨rfl, rfl, rfl⟩

/-- C3 amended: generating and emitting the enum definition
`enum Color \x7b "red", "green" \x7d;` produces exactly one type alias line
declaring `Color` as the literal-union text `"red" | "green"` (no separate
alias over `string` and no comment line). -/
theorem enum_emission_amended :
    pipeline c3input = some c3output :=
  rfl

/-- A matched integer body is at least one character long. -/
theorem integerBody_pos {l : List Char} {n : Nat} (h : integerBody l = some n) : 1 ≤ n := by
  unfold integerBody at h
  repeat' split at h
  all_goals try simp_all
  all_goals omega

/-- A matched integer is at least one character long. -/
theorem integerMatch_pos {l : List Char} {n : Nat} (h : integerMatch l = some n) : 1 ≤ n := by
  unfold integerMatch at h
  repeat' split at h
  · rcases Option.map_eq_some'.mp h with ⟨m, _, hm⟩
    omega
  · exact integerBody_pos h
  · simp at h

/-- A matched float body is at least one character long. -/
theorem floatBody_pos {l : List Char} {n : Nat} (h : floatBody l = some n) : 1 ≤ n := by
  unfold floatBody at h
  repeat' split at h
  all_goals (first | (injection h with h2; omega) | injection h)

/-- A matched float is at least one character long. -/
theorem floatMatch_pos {l : List Char} {n : Nat} (h : floatMatch l = some n) : 1 ≤ n := by
  unfold floatMatch at h
  repeat' split at h
  · rcases Option.map_eq_some'.mp h with ⟨m, _, hm⟩
    omega
  · exact floatBody_pos h
  · simp at h

/-- A matched identifier is at least one character long. -/
theorem identifierMatch_pos {l : List Char} {n : Nat} (h : identifierMatch l = some n) :
    1 ≤ n := by
  unfold identifierMatch at h
  repeat' split at h
  all_goals try simp_all
  all_goals omega

/-- A matched string literal is at least one character long. -/
theorem stringMatch_pos {l : List Char} {n : Nat} (h : stringMatch l = some n) : 1 ≤ n := by
  unfold stringMatch at h
  repeat' split at h
  all_goals try simp_all
  all_goals omega

/-- A matched whitespace run is at least one character long. -/
theorem whitespaceMatch_pos {l : List Char} {n : Nat} (h : whitespaceMatch l = some n) :
    1 ≤ n := by
  unfold whitespaceMatch at h
  dsimp only at h
  split at h
  · injection h with h2; omega
  · injection h

/-- A matched comment is at least one character long. -/
theorem commentMatch_pos {l : List Char} {n : Nat} (h : commentMatch l = some n) : 1 ≤ n := by
  unfold commentMatch at h
  repeat' split at h
  · injection h with h2; omega
  · rcases Option.map_eq_some'.mp h with ⟨m, _, hm⟩
    omega
  · injection h
  · injection h

/-- A matched other-character token is one character long. -/
theorem otherMatch_pos {l : List Char} {n : Nat} (h : otherMatch l = some n) : 1 ≤ n := by
  unfold otherMatch at h
  repeat' split at h
  all_goals simp_all

/-- A keyword found by the ordered prefix scan has the length of a keyword in
the list, hence is non-empty when all of them are. -/
theorem firstPrefix_pos : ∀ {ks : List String} {l : List Char} {n : Nat},
    (∀ k ∈ ks, 1 ≤ k.data.length) → firstPrefix ks l = some n → 1 ≤ n := by
  intro ks
  induction ks with
  | nil => intro l n _ h; simp [firstPrefix] at h
  | cons k ks ih =>
    intro l n hk h
    unfold firstPrefix at h
    split at h
    · injection h with h2
      have := hk k (List.mem_cons_self _ _)
      omega
    · exact ih (fun k2 hk2 => hk k2 (List.mem_cons_of_mem _ hk2)) h

/-- A matched keyword is at least one character long. -/
theorem keywordMatch_pos {l : List Char} {n : Nat} (h : keywordMatch l = some n) : 1 ≤ n :=
  firstPrefix_pos (by decide) h

/-- The longest-match fold yields the accumulator or a list element. -/
theorem foldl_pickStep_mem (xs : List (TokenKind × Nat)) :
    ∀ a : TokenKind × Nat, xs.foldl pickStep a = a ∨ xs.foldl pickStep a ∈ xs := by
  induction xs with
  | nil => intro a; left; rfl
  | cons x xs ih =>
    intro a
    rw [List.foldl_cons]
    rcases ih (pickStep a x) with h | h
    · rw [h]
      unfold pickStep
      split
      · right; exact List.mem_cons_self _ _
      · left; rfl
    · right; exact List.mem_cons_of_mem _ h

/-- The reduce of `tokenize` selects one of the matched candidates. -/
theorem pickBest_mem {xs : List (TokenKind × Nat)} {x : TokenKind × Nat}
    (h : pickBest xs = some x) : x ∈ xs := by
  cases xs with
  | nil => simp [pickBest] at h
  | cons y ys =>
    unfold pickBest at h
    injection h with h2
    rcases foldl_pickStep_mem ys y with h3 | h3
    · rw [h2] at h3
      rw [h3]
      exact List.mem_cons_self _ _
    · rw [h2] at h3
      exact List.mem_cons_of_mem _ h3

/-- A candidate whose pattern matched is among the filtered candidates. -/
theorem mem_matchSome_of_candidate {l : List Char} {k : TokenKind} {n : Nat}
    (h : (k, some n) ∈ matchCandidates l) : (k, n) ∈ matchSome l := by
  rw [matchSome, List.mem_filterMap]
  exact ⟨(k, some n), h, rfl⟩

/-- Every filtered candidate's length is positive. -/
theorem mem_matchSome_pos {l : List Char} {k : TokenKind} {n : Nat}
    (h : (k, n) ∈ matchSome l) : 1 ≤ n := by
  rw [matchSome, List.mem_filterMap] at h
  obtain ⟨⟨k2, o⟩, hmem, hf⟩ := h
  rcases Option.map_eq_some'.mp hf with ⟨m, ho, hpair⟩
  injection hpair with hk hm
  subst hk
  subst hm
  subst ho
  simp only [matchCandidates, List.mem_cons, List.mem_singleton, Prod.mk.injEq,
    List.not_mem_nil, or_false] at hmem
  rcases hmem with ⟨hkw, hkw2⟩ | ⟨hin, hin2⟩ | ⟨hfl, hfl2⟩ | ⟨hid, hid2⟩ |
    ⟨hst, hst2⟩ | ⟨hws, hws2⟩ | ⟨hcm, hcm2⟩ | ⟨hot, hot2⟩
  · exact keywordMatch_pos hkw2.symm
  · exact integerMatch_pos hin2.symm
  · exact floatMatch_pos hfl2.symm
  · exact identifierMatch_pos hid2.symm
  · exact stringMatch_pos hst2.symm
  · exact whitespaceMatch_pos hws2.symm
  · exact commentMatch_pos hcm2.symm
  · exact otherMatch_pos hot2.symm

/-- A digit head always lets the integer body match. -/
theorem integerBody_digit {c : Char} (rest : List Char) (hc : isDigitChar c = true) :
    ∃ n, integerBody (c :: rest) = some n := by
  simp only [isDigitChar, decide_eq_true_eq] at hc
  simp only [integerBody]
  by_cases h1 : 49 ≤ c.toNat ∧ c.toNat ≤ 57
  · exact ⟨_, by rw [if_pos h1]⟩
  · have h0 : c.toNat = 48 := by omega
    rw [if_neg h1, if_pos h0]
    cases rest with
    | nil => exact ⟨1, rfl⟩
    | cons x rest2 =>
      dsimp only
      by_cases hx : (x.toNat = 120 ∨ x.toNat = 88) ∧ headIsHex rest2 = true
      · exact ⟨_, by rw [if_pos hx]⟩
      · exact ⟨_, by rw [if_neg hx]⟩

/-- A digit head always lets the integer pattern match. -/
theorem integerMatch_digit {c : Char} (rest : List Char) (hc : isDigitChar c = true) :
    ∃ n, integerMatch (c :: rest) = some n := by
  have h45 : ¬(c.toNat = 45) := by
    simp only [isDigitChar, decide_eq_true_eq] at hc
    omega
  obtain ⟨n, hn⟩ := integerBody_digit rest hc
  refine ⟨n, ?_⟩
  simp only [integerMatch]
  rw [if_neg h45]
  exact hn

/-- A letter head always lets the identifier pattern match. -/
theorem identifierMatch_letter {c : Char} (rest : List Char) (hc : isAsciiLetter c = true) :
    ∃ n, identifierMatch (c :: rest) = some n := by
  have h95 : ¬(c.toNat = 95) := by
    simp only [isAsciiLetter, decide_eq_true_eq] at hc
    omega
  refine ⟨1 + identRun rest, ?_⟩
  simp only [identifierMatch]
  rw [if_neg h95, if_pos hc]

/-- A whitespace head always lets the whitespace pattern match. -/
theorem whitespaceMatch_ws {c : Char} (rest : List Char) (hc : isWsChar c = true) :
    ∃ n, whitespaceMatch (c :: rest) = some n := by
  refine ⟨(rest.takeWhile isWsChar).length + 1, ?_⟩
  unfold whitespaceMatch
  rw [List.takeWhile_cons_of_pos hc]
  simp

/-- A head outside every other class lets the catch-all pattern match. -/
theorem otherMatch_other {c : Char} (rest : List Char)
    (h : (isWsChar c || isDigitChar c || isAsciiLetter c) = false) :
    otherMatch (c :: rest) = some 1 := by
  simp only [otherMatch]
  rw [if_neg (by simp [h])]

/-- At a non-empty position some lexical pattern always matches (the catch-all
covers every character outside the whitespace/digit/letter classes). -/
theorem matchSome_ne_nil (c : Char) (rest : List Char) : matchSome (c :: rest) ≠ [] := by
  by_cases hw : isWsChar c = true
  · obtain ⟨n, hn⟩ := whitespaceMatch_ws rest hw
    refine List.ne_nil_of_mem (mem_matchSome_of_candidate (k := .whitespace) (n := n) ?_)
    simp [matchCandidates, hn]
  · by_cases hd : isDigitChar c = true
    · obtain ⟨n, hn⟩ := integerMatch_digit rest hd
      refine List.ne_nil_of_mem (mem_matchSome_of_candidate (k := .integer) (n := n) ?_)
      simp [matchCandidates, hn]
    · by_cases hl : isAsciiLetter c = true
      · obtain ⟨n, hn⟩ := identifierMatch_letter rest hl
        refine List.ne_nil_of_mem (mem_matchSome_of_candidate (k := .identifier) (n := n) ?_)
        simp [matchCandidates, hn]
      · have hn := otherMatch_other rest (by
          simp only [Bool.or_eq_false_iff]
          exact ⟨⟨by simpa using hw, by simpa using hd⟩, by simpa using hl⟩)
        refine List.ne_nil_of_mem (mem_matchSome_of_candidate (k := .other) (n := 1) ?_)
        simp [matchCandidates, hn]

/-- The reduce yields a candidate whenever any pattern matched. -/
theorem pickBest_isSome {xs : List (TokenKind × Nat)} (h : xs ≠ []) :
    ∃ x, pickBest xs = some x := by
  cases xs with
  | nil => exact absurd rfl h
  | cons y ys => exact ⟨_, rfl⟩

/-- Dropping the final token distributes over a cons with a non-empty tail. -/
theorem spanConcat_cons (t : Token) (ts : List Token) (h : ts ≠ []) :
    spanConcat (t :: ts) = t.span.textD.data ++ spanConcat ts := by
  unfold spanConcat
  rw [List.dropLast_cons_of_ne_nil h]
  simp

/-- Totality and round trip of the scan loop: with fuel exceeding the input
length the loop always produces a token list (never the error branches), the
list is non-empty (it ends with the eof token), and the concatenated texts of
all tokens but the eof reconstruct the input exactly. -/
theorem tokenizeGo_ok :
    ∀ (fuel : Nat) (l : List Char) (pos : Int), l.length < fuel →
      ∃ ts, tokenizeGo fuel l pos = .ok ts ∧ ts ≠ [] ∧ spanConcat ts = l := by
  intro fuel
  induction fuel with
  | zero => intro l pos h; omega
  | succ f ih =>
    intro l pos h
    cases l with
    | nil =>
      refine ⟨[{ kind := .eof, span := { text := some "<eof>", position := pos } }],
        rfl, by simp, rfl⟩
    | cons c rest =>
      obtain ⟨x, hx⟩ := pickBest_isSome (matchSome_ne_nil c rest)
      obtain ⟨k, n⟩ := x
      have hn : 1 ≤ n := mem_matchSome_pos (pickBest_mem hx)
      have hlen : (List.drop n (c :: rest)).length < f := by
        rw [List.length_drop]
        simp only [List.length_cons] at h ⊢
        omega
      obtain ⟨ts, hts, htne, hconcat⟩ := ih ((c :: rest).drop n) (pos + (n : Int)) hlen
      refine ⟨{ kind := k,
                span := { text := some (String.mk ((c :: rest).take n)), position := pos } }
              :: ts, ?_, by simp, ?_⟩
      · simp only [tokenizeGo, hx, hts]
      · rw [spanConcat_cons _ _ htne, hconcat]
        show ((c :: rest).take n) ++ ((c :: rest).drop n) = c :: rest
        exact List.take_append_drop n (c :: rest)

/-- C4: tokenizer round trip.  For every input, `tokenize` produces a token
list (its lexical-error branch is unreachable: the catch-all pattern covers
every character no other pattern matches), and concatenating the span texts of
every produced token except the final synthetic end-of-file token yields the
input string exactly. -/
theorem tokenize_roundtrip (l : List Char) :
    ∃ ts, tokenize l = .ok ts ∧ spanConcat ts = l := by
  obtain ⟨ts, h1, _, h3⟩ := tokenizeGo_ok (l.length + 1) l 0 (by omega)
  exact ⟨ts, h1, h3⟩

/-- The longest-match fold, characterized: its result is either the
accumulator — with every element at most as long — or the first element that
is strictly longer than the accumulator and than every element before it, and
at least as long as every element. -/
theorem foldl_pickStep_first_max (xs : List (TokenKind × Nat)) :
    ∀ acc : TokenKind × Nat,
      (xs.foldl pickStep acc = acc ∧ ∀ y ∈ xs, y.2 ≤ acc.2) ∨
      (∃ i : Fin xs.length, xs.foldl pickStep acc = xs.get i ∧ acc.2 < (xs.get i).2 ∧
        (∀ j : Fin xs.length, j.val < i.val → (xs.get j).2 < (xs.get i).2) ∧
        (∀ j : Fin xs.length, (xs.get j).2 ≤ (xs.get i).2)) := by
  induction xs with
  | nil =>
    intro acc
    left
    exact ⟨rfl, by simp⟩
  | cons x xs ih =>
    intro acc
    rw [List.foldl_cons]
    by_cases hx : acc.2 < x.2
    · have hstep : pickStep acc x = x := by
        unfold pickStep
        rw [if_pos hx]
      rw [hstep]
      rcases ih x with ⟨heq, hall⟩ | ⟨i, heq, hgt, hfirst, hmax⟩
      · right
        refine ⟨⟨0, Nat.succ_pos _⟩, heq, hx, ?_, ?_⟩
        · intro j hj
          exact absurd hj (Nat.not_lt_zero _)
        · intro j
          rcases j with ⟨jv, hjv⟩
          cases jv with
          | zero => exact le_refl _
          | succ j2 =>
            show (xs.get ⟨j2, Nat.lt_of_succ_lt_succ hjv⟩).2 ≤ x.2
            exact hall _ (List.get_mem xs j2 _)
      · right
        refine ⟨⟨i.val + 1, Nat.succ_lt_succ i.isLt⟩, heq, ?_, ?_, ?_⟩
        · show acc.2 < (xs.get i).2
          exact lt_trans hx hgt
        · intro j hj
          rcases j with ⟨jv, hjv⟩
          cases jv with
          | zero =>
            show x.2 < (xs.get i).2
            exact hgt
          | succ j2 =>
            show (xs.get ⟨j2, Nat.lt_of_succ_lt_succ hjv⟩).2 < (xs.get i).2
            exact hfirst ⟨j2, Nat.lt_of_succ_lt_succ hjv⟩ (Nat.lt_of_succ_lt_succ hj)
        · intro j
          rcases j with ⟨jv, hjv⟩
          cases jv with
          | zero =>
            show x.2 ≤ (xs.get i).2
            exact le_of_lt hgt
          | succ j2 =>
            show (xs.get ⟨j2, Nat.lt_of_succ_lt_succ hjv⟩).2 ≤ (xs.get i).2
            exact hmax ⟨j2, Nat.lt_of_succ_lt_succ hjv⟩
    · have hstep : pickStep acc x = acc := by
        unfold pickStep
        rw [if_neg hx]
      rw [hstep]
      rcases ih acc with ⟨heq, hall⟩ | ⟨i, heq, hgt, hfirst, hmax⟩
      · left
        refine ⟨heq, ?_⟩
        intro y hy
        rcases List.mem_cons.mp hy with rfl | hy2
        · omega
        · exact hall y hy2
      · right
        refine ⟨⟨i.val + 1, Nat.succ_lt_succ i.isLt⟩, heq, ?_, ?_, ?_⟩
        · show acc.2 < (xs.get i).2
          exact hgt
        · intro j hj
          rcases j with ⟨jv, hjv⟩
          cases jv with
          | zero =>
            show x.2 < (xs.get i).2
            have h2 : acc.2 < (xs.get i).2 := hgt
            omega
          | succ j2 =>
            show (xs.get ⟨j2, Nat.lt_of_succ_lt_succ hjv⟩).2 < (xs.get i).2
            exact hfirst ⟨j2, Nat.lt_of_succ_lt_succ hjv⟩ (Nat.lt_of_succ_lt_succ hj)
        · intro j
          rcases j with ⟨jv, hjv⟩
          cases jv with
          | zero =>
            show x.2 ≤ (xs.get i).2
            have h2 : acc.2 < (xs.get i).2 := hgt
            omega
          | succ j2 =>
            show (xs.get ⟨j2, Nat.lt_of_succ_lt_succ hjv⟩).2 ≤ (xs.get i).2
            exact hmax ⟨j2, Nat.lt_of_succ_lt_succ hjv⟩

/-- The reduce of `tokenize` selects the first candidate of maximal length:
a candidate at least as long as every candidate and strictly longer than every
candidate listed before it. -/
theorem pickBest_first_max {xs : List (TokenKind × Nat)} {x : TokenKind × Nat}
    (h : pickBest xs = some x) :
    ∃ i : Fin xs.length, x = xs.get i ∧ (∀ j : Fin xs.length, (xs.get j).2 ≤ x.2) ∧
      (∀ j : Fin xs.length, j.val < i.val → (xs.get j).2 < x.2) := by
  cases xs with
  | nil => simp [pickBest] at h
  | cons y ys =>
    unfold pickBest at h
    injection h with h2
    rcases foldl_pickStep_first_max ys y with ⟨heq, hall⟩ | ⟨i, heq, hgt, hfirst, hmax⟩
    · have hxy : x = y := by rw [← h2]; exact heq
      subst hxy
      refine ⟨⟨0, Nat.succ_pos _⟩, rfl, ?_, ?_⟩
      · intro j
        rcases j with ⟨jv, hjv⟩
        cases jv with
        | zero => exact le_refl _
        | succ j2 =>
          show (ys.get ⟨j2, Nat.lt_of_succ_lt_succ hjv⟩).2 ≤ x.2
          exact hall _ (List.get_mem ys j2 _)
      · intro j hj
        exact absurd hj (Nat.not_lt_zero _)
    · have hxy : x = ys.get i := by rw [← h2]; exact heq
      subst hxy
      refine ⟨⟨i.val + 1, Nat.succ_lt_succ i.isLt⟩, rfl, ?_, ?_⟩
      · intro j
        rcases j with ⟨jv, hjv⟩
        cases jv with
        | zero =>
          show y.2 ≤ (ys.get i).2
          exact le_of_lt hgt
        | succ j2 =>
          show (ys.get ⟨j2, Nat.lt_of_succ_lt_succ hjv⟩).2 ≤ (ys.get i).2
          exact hmax ⟨j2, Nat.lt_of_succ_lt_succ hjv⟩
      · intro j hj
        rcases j with ⟨jv, hjv⟩
        cases jv with
        | zero =>
          show y.2 < (ys.get i).2
          exact hgt
        | succ j2 =>
          show (ys.get ⟨j2, Nat.lt_of_succ_lt_succ hjv⟩).2 < (ys.get i).2
          exact hfirst ⟨j2, Nat.lt_of_succ_lt_succ hjv⟩ (Nat.lt_of_succ_lt_succ hj)

/-- C7: keyword priority and the tie-breaking rule.  First conjunct: the text
`long` tokenizes to exactly one non-eof token whose kind is keyword, not
identifier, although both patterns match the full text.  Second conjunct: at
every position the candidate the scanner selects from the matched patterns —
listed by `matchCandidates` in the fixed order keyword, integer, float,
identifier, string, whitespace, comment, other — is of maximal match length
and strictly longer than every candidate listed before it: the longest match
wins and a tie goes to the earlier pattern. -/
theorem keyword_priority :
    tokenize "long".data =
      .ok [{ kind := .keyword, span := { text := some "long", position := 0 } },
           { kind := .eof, span := { text := some "<eof>", position := 4 } }] ∧
    ∀ (l : List Char) (x : TokenKind × Nat), pickBest (matchSome l) = some x →
      ∃ i : Fin (matchSome l).length, x = (matchSome l).get i ∧
        (∀ j : Fin (matchSome l).length, ((matchSome l).get j).2 ≤ x.2) ∧
        (∀ j : Fin (matchSome l).length, j.val < i.val → ((matchSome l).get j).2 < x.2) := by
  constructor
  · rfl
  · intro l x h
    exact pickBest_first_max h

/-- Witness for C7's selection rule at the input `long`: both the keyword and
the identifier pattern match all 4 characters, and the selected candidate is
the keyword one. -/
theorem keyword_priority_witness :
    pickBest (matchSome "long".data) = some (TokenKind.keyword, 4) ∧
    (∃ i : Fin (matchSome "long".data).length,
      (TokenKind.keyword, 4) = (matchSome "long".data).get i ∧
      (∀ j : Fin (matchSome "long".data).length,
        ((matchSome "long".data).get j).2 ≤ (TokenKind.keyword, 4).2) ∧
      (∀ j : Fin (matchSome "long".data).length, j.val < i.val →
        ((matchSome "long".data).get j).2 < (TokenKind.keyword, 4).2)) :=
  ⟨rfl, keyword_priority.2 "long".data (TokenKind.keyword, 4) rfl⟩

end webidl
